import Mathlib

/-!
# Room facade (`src/server.js`, `src/api/server.js`)

A shallow embedding of the two Express applications that translate HTTP
requests into ledger transactions.  The route handlers are transcribed
statement by statement; the ledger, the address derivation and the public-key
constructor are parameters (`World`), and the big-number operations the
handlers call (`new BN`, `addn`, `toArrayLike`, `toString`) are modelled after
bn.js 5, the version the Anchor client depends on.

Every handler returns its HTTP response together with the ordered list of
external calls it made (`Event`) and the ledger state it left behind.
-/

namespace Sonic

/-! ## Values crossing the HTTP boundary -/

/-- A field of a parsed JSON request body.  `undefined` is an absent field.
Numbers are the integer-valued ones; arrays, nested objects and fractional
numbers are outside the model. -/
inductive JsVal where
  | undefined
  | null
  | bool (b : Bool)
  | num (n : Int)
  | str (s : String)
  deriving DecidableEq, Repr

deriving instance DecidableEq for Except

/-- A byte buffer; every element is below 256. -/
abbrev Bytes := List Nat

/-- The call `Buffer.from(s)`: the UTF-8 bytes of `s`. -/
def Buffer_from (s : String) : Bytes :=
  s.toList.flatMap (fun c => (String.utf8EncodeChar c).map UInt8.toNat)

/-! ## bn.js -/

/-- A bn.js number, by value. -/
abbrev BN := Int

/-- Number of significant bits of a magnitude, by repeated halving; `fuel`
bounds the number of halvings. -/
def bitLengthAux : Nat → Nat → Nat
  | 0, _ => 0
  | fuel + 1, m => if m = 0 then 0 else 1 + bitLengthAux fuel (m / 2)

/-- Method `BN.prototype.bitLength`: the number of significant bits. -/
def BN.bitLength (a : BN) : Nat := bitLengthAux a.natAbs a.natAbs

/-- Method `BN.prototype.byteLength`: `Math.ceil(this.bitLength() / 8)`. -/
def BN.byteLength (a : BN) : Nat := (BN.bitLength a + 7) / 8

/-- The `len` low bytes of `m`, least significant first. -/
def leBytes (m : Nat) : Nat → Bytes
  | 0 => []
  | len + 1 => m % 256 :: leBytes (m / 256) len

/-- The call `a.toArrayLike(Buffer, 'le', length)`.  It writes the magnitude (the sign
is not consulted) and throws when the magnitude does not fit. -/
def BN.toArrayLike (a : BN) (length : Nat) : Except String Bytes :=
  let byteLength := BN.byteLength a
  let reqLength := if length = 0 then max 1 byteLength else length
  if byteLength ≤ reqLength then .ok (leBytes a.natAbs reqLength)
  else .error "byte array longer than desired length"

/-- The call `a.addn(n)`. -/
def BN.addn (a : BN) (n : Nat) : BN := a + n

/-- The call `a.toString()`: decimal, with a leading minus sign for negative values. -/
def BN.toString (a : BN) : String :=
  if a < 0 then "-" ++ Nat.repr a.natAbs else Nat.repr a.natAbs

/-- The characters matched by the JavaScript pattern `\s`. -/
def isWhitespace (c : Char) : Bool :=
  c.toNat ∈ [9, 10, 11, 12, 13, 32, 160, 5760, 8232, 8233, 8239, 8287, 12288, 65279]
    || (8192 ≤ c.toNat && c.toNat ≤ 8202)

/-- One turn of the loop of `parseBase`: `r` is multiplied by the base and
the digit value of `ch` is added; a character that is not a digit of the base
fails the assertion. -/
def parseBaseStep (mul : Nat) (r : Nat) (ch : Char) : Except String Nat :=
  let c : Int := (ch.toNat : Int) - 48
  let b : Int := if 49 ≤ c then c - 49 + 10 else if 17 ≤ c then c - 17 + 10 else c
  if 0 ≤ c ∧ b < mul then .ok (r * mul + b.toNat) else .error "Invalid character"

/-- Function `parseBase(str, start, end, mul)` of bn.js: the value of a digit string
in base `mul`, throwing on a character that is not a digit of that base. -/
def parseBase (str : List Char) (mul : Nat) : Except String Nat :=
  str.foldlM (parseBaseStep mul) 0

/-- The call `new BN(number)` followed by the first use of the result.  The
constructor takes `number || 0`; a JavaScript number must be below `2^53` in
magnitude; anything else is rendered as a string, stripped of whitespace, and
read as an optionally negated decimal.  When nothing is left to read (`null`,
a lone minus sign, whitespace only) the constructor leaves the number without
digits and the `toArrayLike` call that follows in every handler throws a
`TypeError`; that throw is reported here. -/
def newBN : JsVal → Except String BN
  | .undefined => .ok 0
  | .null => .error "Cannot read properties of null"
  | .bool false => .ok 0
  | .bool true => .error "Invalid character"
  | .num n => if n.natAbs < 2 ^ 53 then .ok n else .error "Assertion failed"
  | .str s =>
    if s = "" then .ok 0
    else
      let number := s.toList.filter (fun c => !isWhitespace c)
      match number with
      | [] => .error "Cannot read properties of null"
      | [ '-' ] => .error "Cannot read properties of null"
      | '-' :: digits => (parseBase digits 10).map (fun (m : Nat) => -(m : Int))
      | digits => (parseBase digits 10).map (fun (m : Nat) => (m : Int))

/-! ## Accounts, instructions, responses -/

/-- The decoded `globalState` account. -/
structure GlobalState where
  totalRooms : BN
  deriving DecidableEq, Repr

/-- The decoded `room` account, with the fields the handlers read. -/
structure Room (PK St : Type) where
  creator : PK
  stakingAmount : BN
  players : List PK
  state : St
  creationTime : BN
  winner : PK
  roomId : BN
  deriving DecidableEq, Repr

/-- A transition request: the program method, its arguments and the accounts
named in `.accounts({...})`.  `init` is the program method `initialize`. -/
inductive Instruction (PK : Type) where
  | init (bump : Nat) (globalState user systemProgram : PK)
  | createRoom (room globalState creator systemProgram : PK)
  | joinRoom (room player systemProgram : PK)
  | endGame (winnerArg : PK) (room winner systemProgram : PK)
  deriving DecidableEq, Repr

/-- The `roomData` object of a fetch-room response. -/
structure RoomData (St : Type) where
  creator : String
  stakingAmount : String
  players : List String
  state : St
  creationTime : String
  winner : String
  roomId : String
  deriving DecidableEq, Repr

/-- The JSON object passed to `res.json`. -/
inductive ResBody (St : Type) where
  | message (success : Bool) (message : String)
  | roomId (success : Bool) (roomId : String)
  | roomData (success : Bool) (roomData : RoomData St)
  | error (success : Bool) (error : String)
  deriving DecidableEq, Repr

/-- An HTTP response: status code and JSON body. -/
structure Response (St : Type) where
  status : Nat
  body : ResBody St
  deriving DecidableEq, Repr

/-- The `success` field of a response. -/
def Response.success {St : Type} (r : Response St) : Bool :=
  match r.body with
  | .message s _ => s
  | .roomId s _ => s
  | .roomData s _ => s
  | .error s _ => s

/-- A response with its free-text strings blanked: what is left is the status
and the shape of the body. -/
def Response.eraseText {St : Type} (r : Response St) : Response St :=
  match r.body with
  | .message s _ => ⟨r.status, .message s ""⟩
  | .error s _ => ⟨r.status, .error s ""⟩
  | b => ⟨r.status, b⟩

/-- The parsed JSON body of a request (`req.body`), by the fields the
handlers destructure; a field the request does not carry is `undefined`. -/
structure Body where
  creatorPublicKey : JsVal
  playerPublicKey : JsVal
  winnerPublicKey : JsVal
  roomId : JsVal
  deriving DecidableEq, Repr

/-! ## The world outside the handlers -/

/-- One external call made by a handler, with its outcome. -/
inductive Event (PK St : Type) where
  | findProgramAddress (seeds : List Bytes) (result : Except String (PK × Nat))
  | fetchGlobalState (address : PK) (result : Except String GlobalState)
  | fetchRoom (address : PK) (result : Except String (Room PK St))
  | rpc (ix : Instruction PK) (result : Except String Unit)
  deriving DecidableEq

/-- A ledger read. -/
def Event.isRead {PK St : Type} : Event PK St → Bool
  | .fetchGlobalState _ _ => true
  | .fetchRoom _ _ => true
  | _ => false

/-- A transition submission. -/
def Event.isSubmit {PK St : Type} : Event PK St → Bool
  | .rpc _ _ => true
  | _ => false

/-- The message of a call that failed. -/
def Event.error? {PK St : Type} : Event PK St → Option String
  | .findProgramAddress _ (.error e) => some e
  | .fetchGlobalState _ (.error e) => some e
  | .fetchRoom _ (.error e) => some e
  | .rpc _ (.error e) => some e
  | _ => none

/-- Ledger input/output: a read or a submission (address derivation is a
local computation). -/
def Event.isLedgerCall {PK St : Type} (e : Event PK St) : Bool := e.isRead || e.isSubmit

/-- Everything the module-level objects `connection`, `provider` and
`program` stand for.  `σ` is the ledger state; a read or a submission may
fail and may leave the ledger in a different state. -/
structure World (σ PK St : Type) where
  programId : PK
  walletPublicKey : PK
  systemProgramId : PK
  findProgramAddress : List Bytes → PK → Except String (PK × Nat)
  newPublicKey : JsVal → Except String PK
  pkToString : PK → String
  fetchGlobalState : σ → PK → Except String GlobalState × σ
  fetchRoom : σ → PK → Except String (Room PK St) × σ
  rpc : σ → Instruction PK → Except String Unit × σ

/-- What a handler leaves behind: the response, the external calls in order,
and the ledger state. -/
structure Result (σ PK St : Type) where
  response : Response St
  trace : List (Event PK St)
  state : σ

/-- The `catch` block shared by all handlers:
`res.status(500).json({ success: false, error: error.message })`. -/
def fail {σ PK St : Type} (error : String) (trace : List (Event PK St)) (s : σ) :
    Result σ PK St :=
  ⟨⟨500, .error false error⟩, trace, s⟩


/-! ## Route handlers of `src/server.js` -/

namespace Server

variable {σ PK St : Type}

/-- Handler of `POST /initialize` (`src/server.js`, lines 25-45). -/
def init (W : World σ PK St) (s : σ) : Result σ PK St :=
  let seeds := [Buffer_from "global-state"]
  let derived := W.findProgramAddress seeds W.programId
  let t0 := [Event.findProgramAddress seeds derived]
  match derived with
  | .error e => fail e t0 s
  | .ok (globalState, bump) =>
    let ix := Instruction.init bump globalState W.walletPublicKey W.systemProgramId
    match W.rpc s ix with
    | (.error e, s1) => fail e (t0 ++ [.rpc ix (.error e)]) s1
    | (.ok u, s1) => ⟨⟨200, .message true "Game initialized"⟩, t0 ++ [.rpc ix (.ok u)], s1⟩

/-- Handler of `POST /create-room` (`src/server.js`, lines 47-78). -/
def createRoom (W : World σ PK St) (body : Body) (s : σ) : Result σ PK St :=
  let creatorPublicKey := body.creatorPublicKey
  let seeds := [Buffer_from "global-state"]
  let derived := W.findProgramAddress seeds W.programId
  let t0 := [Event.findProgramAddress seeds derived]
  match derived with
  | .error e => fail e t0 s
  | .ok (globalState, _) =>
    match W.fetchGlobalState s globalState with
    | (.error e, s1) => fail e (t0 ++ [.fetchGlobalState globalState (.error e)]) s1
    | (.ok globalStateAccount, s1) =>
      let t1 := t0 ++ [.fetchGlobalState globalState (.ok globalStateAccount)]
      let roomId := BN.addn globalStateAccount.totalRooms 1
      match BN.toArrayLike roomId 8 with
      | .error e => fail e t1 s1
      | .ok key =>
        let roomSeeds := [Buffer_from "room", key]
        let roomDerived := W.findProgramAddress roomSeeds W.programId
        let t2 := t1 ++ [.findProgramAddress roomSeeds roomDerived]
        match roomDerived with
        | .error e => fail e t2 s1
        | .ok (room, _) =>
          match W.newPublicKey creatorPublicKey with
          | .error e => fail e t2 s1
          | .ok creator =>
            let ix := Instruction.createRoom room globalState creator W.systemProgramId
            match W.rpc s1 ix with
            | (.error e, s2) => fail e (t2 ++ [.rpc ix (.error e)]) s2
            | (.ok u, s2) =>
              ⟨⟨200, .roomId true (BN.toString roomId)⟩, t2 ++ [.rpc ix (.ok u)], s2⟩

/-- Handler of `POST /join-room` (`src/server.js`, lines 80-102). -/
def joinRoom (W : World σ PK St) (body : Body) (s : σ) : Result σ PK St :=
  let playerPublicKey := body.playerPublicKey
  let roomId := body.roomId
  match (newBN roomId).bind (fun n => BN.toArrayLike n 8) with
  | .error e => fail e [] s
  | .ok key =>
    let roomSeeds := [Buffer_from "room", key]
    let roomDerived := W.findProgramAddress roomSeeds W.programId
    let t0 := [Event.findProgramAddress roomSeeds roomDerived]
    match roomDerived with
    | .error e => fail e t0 s
    | .ok (room, _) =>
      match W.newPublicKey playerPublicKey with
      | .error e => fail e t0 s
      | .ok player =>
        let ix := Instruction.joinRoom room player W.systemProgramId
        match W.rpc s ix with
        | (.error e, s1) => fail e (t0 ++ [.rpc ix (.error e)]) s1
        | (.ok u, s1) =>
          ⟨⟨200, .message true "Joined room successfully"⟩, t0 ++ [.rpc ix (.ok u)], s1⟩

/-- Handler of `POST /end-game` (`src/server.js`, lines 104-126).  The
winner key is constructed twice, once as the method argument and once for the
`winner` account. -/
def endGame (W : World σ PK St) (body : Body) (s : σ) : Result σ PK St :=
  let roomId := body.roomId
  let winnerPublicKey := body.winnerPublicKey
  match (newBN roomId).bind (fun n => BN.toArrayLike n 8) with
  | .error e => fail e [] s
  | .ok key =>
    let roomSeeds := [Buffer_from "room", key]
    let roomDerived := W.findProgramAddress roomSeeds W.programId
    let t0 := [Event.findProgramAddress roomSeeds roomDerived]
    match roomDerived with
    | .error e => fail e t0 s
    | .ok (room, _) =>
      match W.newPublicKey winnerPublicKey with
      | .error e => fail e t0 s
      | .ok winnerArg =>
        match W.newPublicKey winnerPublicKey with
        | .error e => fail e t0 s
        | .ok winner =>
          let ix := Instruction.endGame winnerArg room winner W.systemProgramId
          match W.rpc s ix with
          | (.error e, s1) => fail e (t0 ++ [.rpc ix (.error e)]) s1
          | (.ok u, s1) =>
            ⟨⟨200, .message true "Game ended successfully"⟩, t0 ++ [.rpc ix (.ok u)], s1⟩

/-- Handler of `GET /room/:roomId` (`src/server.js`, lines 128-154); the
route parameter is a string. -/
def fetchRoom (W : World σ PK St) (roomId : String) (s : σ) : Result σ PK St :=
  match (newBN (.str roomId)).bind (fun n => BN.toArrayLike n 8) with
  | .error e => fail e [] s
  | .ok key =>
    let roomSeeds := [Buffer_from "room", key]
    let roomDerived := W.findProgramAddress roomSeeds W.programId
    let t0 := [Event.findProgramAddress roomSeeds roomDerived]
    match roomDerived with
    | .error e => fail e t0 s
    | .ok (room, _) =>
      match W.fetchRoom s room with
      | (.error e, s1) => fail e (t0 ++ [.fetchRoom room (.error e)]) s1
      | (.ok roomAccount, s1) =>
        ⟨⟨200, .roomData true
            ⟨W.pkToString roomAccount.creator,
             BN.toString roomAccount.stakingAmount,
             roomAccount.players.map (fun p => W.pkToString p),
             roomAccount.state,
             BN.toString roomAccount.creationTime,
             W.pkToString roomAccount.winner,
             BN.toString roomAccount.roomId⟩⟩,
          t0 ++ [.fetchRoom room (.ok roomAccount)], s1⟩

end Server

/-! ## Route handlers of `src/api/server.js` -/

namespace Api

variable {σ PK St : Type}

/-- Handler of `POST /api/initialize` (`src/api/server.js`, lines 29-49). -/
def init (W : World σ PK St) (s : σ) : Result σ PK St :=
  let seeds := [Buffer_from "global-state"]
  let derived := W.findProgramAddress seeds W.programId
  let t0 := [Event.findProgramAddress seeds derived]
  match derived with
  | .error e => fail e t0 s
  | .ok (globalState, bump) =>
    let ix := Instruction.init bump globalState W.walletPublicKey W.systemProgramId
    match W.rpc s ix with
    | (.error e, s1) => fail e (t0 ++ [.rpc ix (.error e)]) s1
    | (.ok u, s1) => ⟨⟨200, .message true "Game initialized"⟩, t0 ++ [.rpc ix (.ok u)], s1⟩

/-- Handler of `POST /api/create-room` (`src/api/server.js`, lines 51-82). -/
def createRoom (W : World σ PK St) (body : Body) (s : σ) : Result σ PK St :=
  let creatorPublicKey := body.creatorPublicKey
  let seeds := [Buffer_from "global-state"]
  let derived := W.findProgramAddress seeds W.programId
  let t0 := [Event.findProgramAddress seeds derived]
  match derived with
  | .error e => fail e t0 s
  | .ok (globalState, _) =>
    match W.fetchGlobalState s globalState with
    | (.error e, s1) => fail e (t0 ++ [.fetchGlobalState globalState (.error e)]) s1
    | (.ok globalStateAccount, s1) =>
      let t1 := t0 ++ [.fetchGlobalState globalState (.ok globalStateAccount)]
      let roomId := BN.addn globalStateAccount.totalRooms 1
      match BN.toArrayLike roomId 8 with
      | .error e => fail e t1 s1
      | .ok key =>
        let roomSeeds := [Buffer_from "room", key]
        let roomDerived := W.findProgramAddress roomSeeds W.programId
        let t2 := t1 ++ [.findProgramAddress roomSeeds roomDerived]
        match roomDerived with
        | .error e => fail e t2 s1
        | .ok (room, _) =>
          match W.newPublicKey creatorPublicKey with
          | .error e => fail e t2 s1
          | .ok creator =>
            let ix := Instruction.createRoom room globalState creator W.systemProgramId
            match W.rpc s1 ix with
            | (.error e, s2) => fail e (t2 ++ [.rpc ix (.error e)]) s2
            | (.ok u, s2) =>
              ⟨⟨200, .roomId true (BN.toString roomId)⟩, t2 ++ [.rpc ix (.ok u)], s2⟩

/-- Handler of `POST /api/join-room` (`src/api/server.js`, lines 84-106). -/
def joinRoom (W : World σ PK St) (body : Body) (s : σ) : Result σ PK St :=
  let playerPublicKey := body.playerPublicKey
  let roomId := body.roomId
  match (newBN roomId).bind (fun n => BN.toArrayLike n 8) with
  | .error e => fail e [] s
  | .ok key =>
    let roomSeeds := [Buffer_from "room", key]
    let roomDerived := W.findProgramAddress roomSeeds W.programId
    let t0 := [Event.findProgramAddress roomSeeds roomDerived]
    match roomDerived with
    | .error e => fail e t0 s
    | .ok (room, _) =>
      match W.newPublicKey playerPublicKey with
      | .error e => fail e t0 s
      | .ok player =>
        let ix := Instruction.joinRoom room player W.systemProgramId
        match W.rpc s ix with
        | (.error e, s1) => fail e (t0 ++ [.rpc ix (.error e)]) s1
        | (.ok u, s1) =>
          ⟨⟨200, .message true "Joined room successfully"⟩, t0 ++ [.rpc ix (.ok u)], s1⟩

/-- Handler of `POST /api/end-game` (`src/api/server.js`, lines 108-130).  The
winner key is constructed twice, once as the method argument and once for the
`winner` account. -/
def endGame (W : World σ PK St) (body : Body) (s : σ) : Result σ PK St :=
  let roomId := body.roomId
  let winnerPublicKey := body.winnerPublicKey
  match (newBN roomId).bind (fun n => BN.toArrayLike n 8) with
  | .error e => fail e [] s
  | .ok key =>
    let roomSeeds := [Buffer_from "room", key]
    let roomDerived := W.findProgramAddress roomSeeds W.programId
    let t0 := [Event.findProgramAddress roomSeeds roomDerived]
    match roomDerived with
    | .error e => fail e t0 s
    | .ok (room, _) =>
      match W.newPublicKey winnerPublicKey with
      | .error e => fail e t0 s
      | .ok winnerArg =>
        match W.newPublicKey winnerPublicKey with
        | .error e => fail e t0 s
        | .ok winner =>
          let ix := Instruction.endGame winnerArg room winner W.systemProgramId
          match W.rpc s ix with
          | (.error e, s1) => fail e (t0 ++ [.rpc ix (.error e)]) s1
          | (.ok u, s1) =>
            ⟨⟨200, .message true "Game ended successfully"⟩, t0 ++ [.rpc ix (.ok u)], s1⟩

/-- Handler of `GET /api/room/:roomId` (`src/api/server.js`, lines 132-158); the
route parameter is a string. -/
def fetchRoom (W : World σ PK St) (roomId : String) (s : σ) : Result σ PK St :=
  match (newBN (.str roomId)).bind (fun n => BN.toArrayLike n 8) with
  | .error e => fail e [] s
  | .ok key =>
    let roomSeeds := [Buffer_from "room", key]
    let roomDerived := W.findProgramAddress roomSeeds W.programId
    let t0 := [Event.findProgramAddress roomSeeds roomDerived]
    match roomDerived with
    | .error e => fail e t0 s
    | .ok (room, _) =>
      match W.fetchRoom s room with
      | (.error e, s1) => fail e (t0 ++ [.fetchRoom room (.error e)]) s1
      | (.ok roomAccount, s1) =>
        ⟨⟨200, .roomData true
            ⟨W.pkToString roomAccount.creator,
             BN.toString roomAccount.stakingAmount,
             roomAccount.players.map (fun p => W.pkToString p),
             roomAccount.state,
             BN.toString roomAccount.creationTime,
             W.pkToString roomAccount.winner,
             BN.toString roomAccount.roomId⟩⟩,
          t0 ++ [.fetchRoom room (.ok roomAccount)], s1⟩

end Api

/-! ## The two applications side by side -/

/-- The two source files that define the route set. -/
inductive SourceFile where
  | server
  | api
  deriving DecidableEq, Repr

/-- One of the five operations, with its request data. -/
inductive Request where
  | init
  | createRoom (body : Body)
  | joinRoom (body : Body)
  | endGame (body : Body)
  | fetchRoom (roomId : String)
  deriving DecidableEq, Repr

/-- The request field a handler passes to `new PublicKey`, if any. -/
def Request.identity : Request → Option JsVal
  | .init => none
  | .createRoom body => some body.creatorPublicKey
  | .joinRoom body => some body.playerPublicKey
  | .endGame body => some body.winnerPublicKey
  | .fetchRoom _ => none

/-- The request field a handler passes to `new anchor.BN`, if any. -/
def Request.roomId : Request → Option JsVal
  | .init => none
  | .createRoom _ => none
  | .joinRoom body => some body.roomId
  | .endGame body => some body.roomId
  | .fetchRoom roomId => some (.str roomId)

variable {σ PK St : Type}

/-- The create-room handler of a source file. -/
def createRoom : SourceFile → World σ PK St → Body → σ → Result σ PK St
  | .server => Server.createRoom
  | .api => Api.createRoom

/-- The join-room handler of a source file. -/
def joinRoom : SourceFile → World σ PK St → Body → σ → Result σ PK St
  | .server => Server.joinRoom
  | .api => Api.joinRoom

/-- The end-game handler of a source file. -/
def endGame : SourceFile → World σ PK St → Body → σ → Result σ PK St
  | .server => Server.endGame
  | .api => Api.endGame

/-- The fetch-room handler of a source file. -/
def fetchRoom : SourceFile → World σ PK St → String → σ → Result σ PK St
  | .server => Server.fetchRoom
  | .api => Api.fetchRoom

/-- The initialize handler of a source file. -/
def init : SourceFile → World σ PK St → σ → Result σ PK St
  | .server => Server.init
  | .api => Api.init

/-- Dispatch of a request to the handler its route names. -/
def handle (f : SourceFile) (W : World σ PK St) : Request → σ → Result σ PK St
  | .init, s => init f W s
  | .createRoom body, s => createRoom f W body s
  | .joinRoom body, s => joinRoom f W body s
  | .endGame body, s => endGame f W body s
  | .fetchRoom roomId, s => fetchRoom f W roomId s

/-! ## Sequences of requests -/

/-- Create-room requests served one after another, each on the ledger state
the previous one left. -/
def runCreateRooms (f : SourceFile) (W : World σ PK St) :
    List Body → σ → List (Response St) × σ
  | [], s => ([], s)
  | body :: rest, s =>
    let r := createRoom f W body s
    let (rs, s1) := runCreateRooms f W rest r.state
    (r.response :: rs, s1)

/-! ## Reading seeds and traces -/

/-- The number a little-endian byte string stands for:
`b0 + b1 * 256 + b2 * 256^2 + ...`. -/
def leValue : Bytes → Nat
  | [] => 0
  | b :: bs => b + 256 * leValue bs

/-- The seed list `[Buffer.from('room'), roomId.toArrayLike(Buffer, 'le', 8)]`
that create-room, join-room, end-game and fetch-room pass to
`findProgramAddress`. -/
def roomSeeds (roomId : BN) : Except String (List Bytes) :=
  (BN.toArrayLike roomId 8).map (fun key => [Buffer_from "room", key])

/-- The seed list `[Buffer.from('global-state')]` that initialize and
create-room pass to `findProgramAddress`. -/
def globalStateSeeds : List Bytes := [Buffer_from "global-state"]

/-- The seed lists a join-room, end-game or fetch-room request with the
given room id derives from: the room seed list when the room id can be read
and encoded, none otherwise. -/
def requestSeeds (roomId : JsVal) : List (List Bytes) :=
  match (newBN roomId).bind (fun a => BN.toArrayLike a 8) with
  | .ok key => [[Buffer_from "room", key]]
  | .error _ => []

/-- The seed lists a handler derived addresses from, in order. -/
def derivedSeeds (t : List (Event PK St)) : List (List Bytes) :=
  t.filterMap (fun e => match e with
    | .findProgramAddress seeds _ => some seeds
    | _ => none)

/-- The ledger reads and submissions of a trace, in order. -/
def ledgerCalls (t : List (Event PK St)) : List (Event PK St) :=
  t.filter Event.isLedgerCall

/-! ## A small ledger to run the handlers on -/

/-- Keys of the demonstration world: a derived address is its seed list, a
parsed key is the one-seed list holding the bytes of its text. -/
abbrev Key := List Bytes

/-- State of the demonstration ledger: the registry counter (absent until
the registry is created), the room accounts in creation order, and `racing`,
the number of creations by other clients that will commit ahead of the next
create-room submissions. -/
structure Ledger where
  totalRooms : Option Nat
  rooms : List (Room Key String)
  racing : Nat
  deriving DecidableEq, Repr

/-- The address of room `roomId` in the demonstration world. -/
def roomAddress (roomId : Nat) : Key := [Buffer_from "room", leBytes roomId 8]

/-- A freshly created room account. -/
def newRoom (roomId : Nat) (creator : Key) : Room Key String :=
  ⟨creator, 0, [creator], "open", 0, [], roomId⟩

/-- The room account stored at an address, if any. -/
def Ledger.findRoom (l : Ledger) (address : Key) : Option (Room Key String) :=
  l.rooms.find? (fun r => decide (roomAddress r.roomId.natAbs = address))

/-- Replace the room account with the same room id. -/
def Ledger.putRoom (l : Ledger) (room : Room Key String) : Ledger :=
  ⟨l.totalRooms, l.rooms.map (fun r => if r.roomId = room.roomId then room else r), l.racing⟩

/-- The demonstration ledger: the registry is created once; a room creation
commits against the current counter and fails when another client got there
first; joining needs an open room and a new player; ending needs an
unresolved room and a participant as winner. -/
def Ledger.rpc (l : Ledger) : Instruction Key → Except String Unit × Ledger
  | .init _ _ _ _ =>
    match l.totalRooms with
    | none => (.ok (), ⟨some 0, l.rooms, l.racing⟩)
    | some _ => (.error "AlreadyInitialized", l)
  | .createRoom room _ creator _ =>
    match l.totalRooms with
    | none => (.error "RegistryNotFound", l)
    | some k =>
      if 0 < l.racing then
        (.error "ConstraintSeeds", ⟨some (k + 1), l.rooms ++ [newRoom (k + 1) []], l.racing - 1⟩)
      else if room = roomAddress (k + 1) then
        (.ok (), ⟨some (k + 1), l.rooms ++ [newRoom (k + 1) creator], l.racing⟩)
      else (.error "ConstraintSeeds", l)
  | .joinRoom room player _ =>
    match l.findRoom room with
    | none => (.error "RoomNotFound", l)
    | some r =>
      if r.state ≠ "open" then (.error "RoomNotOpen", l)
      else if player ∈ r.players then (.error "AlreadyJoined", l)
      else (.ok (), l.putRoom ⟨r.creator, r.stakingAmount, r.players ++ [player], r.state,
        r.creationTime, r.winner, r.roomId⟩)
  | .endGame _ room winner _ =>
    match l.findRoom room with
    | none => (.error "RoomNotFound", l)
    | some r =>
      if r.state = "resolved" then (.error "AlreadyResolved", l)
      else if winner ∈ r.players then
        (.ok (), l.putRoom ⟨r.creator, r.stakingAmount, r.players, "resolved",
          r.creationTime, winner, r.roomId⟩)
      else (.error "WinnerNotAParticipant", l)

/-- The text of a demonstration key. -/
def keyText : Key → String
  | [b] => String.mk (b.map Char.ofNat)
  | _ => "derived"

/-- The demonstration world: addresses are seed lists, a public key parses
from any non-empty string, and the ledger is `Ledger`. -/
def demoWorld : World Ledger Key String where
  programId := [Buffer_from "program"]
  walletPublicKey := [Buffer_from "wallet"]
  systemProgramId := [Buffer_from "system"]
  findProgramAddress := fun seeds _ => .ok (seeds, 255)
  newPublicKey := fun v => match v with
    | .str s => if s = "" then .error "Invalid public key input" else .ok [Buffer_from s]
    | _ => .error "Invalid public key input"
  pkToString := keyText
  fetchGlobalState := fun l address =>
    match l.totalRooms with
    | some k => if address = globalStateSeeds then (.ok ⟨k⟩, l)
                else (.error "Account does not exist", l)
    | none => (.error "Account does not exist", l)
  fetchRoom := fun l address =>
    match l.findRoom address with
    | some r => (.ok r, l)
    | none => (.error "Account does not exist", l)
  rpc := Ledger.rpc

/-- A request body with a creator key only. -/
def creatorBody (creator : String) : Body :=
  ⟨.str creator, .undefined, .undefined, .undefined⟩

/-- A join-room body. -/
def joinBody (roomId : JsVal) (player : String) : Body :=
  ⟨.undefined, .str player, .undefined, roomId⟩

/-- An end-game body. -/
def endBody (roomId : JsVal) (winner : String) : Body :=
  ⟨.undefined, .undefined, .str winner, roomId⟩

/-- The ledger before anything was created. -/
def emptyLedger : Ledger := ⟨none, [], 0⟩

/-- A ledger with an initialised registry holding `k` rooms worth of counter
and no room accounts. -/
def registryAt (k : Nat) : Ledger := ⟨some k, [], 0⟩

/-- A ledger on which one creation by another client commits ahead of the
next create-room submission. -/
def racingLedger : Ledger := ⟨some 0, [], 1⟩

/-- The demonstration ledger after alice created room 1. -/
def openLedger : Ledger :=
  (createRoom .server demoWorld (creatorBody "alice") (registryAt 0)).state

/-- The demonstration ledger after room 1 was resolved in favour of alice. -/
def resolvedLedger : Ledger :=
  (endGame .server demoWorld (endBody (.num 1) "alice") openLedger).state

/-- What every handler guarantees about failures: the response is either a
success with status 200 after calls that all succeeded, or status 500 with
`success: false` and an error message; and the message of a failed call is
the message of the response. -/
def FailureShape (r : Result σ PK St) : Prop :=
  ((r.response.success = true ∧ r.response.status = 200 ∧ ∀ ev ∈ r.trace, ev.error? = none)
    ∨ ∃ msg, r.response = ⟨500, .error false msg⟩)
  ∧ ∀ ev ∈ r.trace, ∀ msg, ev.error? = some msg → r.response = ⟨500, .error false msg⟩
/-! ## Facts about the big-number model -/


theorem bitLengthAux_le_iff (fuel : Nat) : ∀ m n : Nat, m ≤ fuel →
    (bitLengthAux fuel m ≤ n ↔ m < 2 ^ n) := by
  induction fuel with
  | zero =>
    intro m n hm
    have : m = 0 := by omega
    subst this
    simp [bitLengthAux]
  | succ fuel ih =>
    intro m n hm
    unfold bitLengthAux
    by_cases h0 : m = 0
    · subst h0; simp
    · rw [if_neg h0]
      cases n with
      | zero => simp; omega
      | succ n =>
        have hd : m / 2 ≤ fuel := by omega
        have := ih (m / 2) n hd
        rw [pow_succ]
        omega

theorem byteLength_le_eight_iff (a : BN) : BN.byteLength a ≤ 8 ↔ a.natAbs < 2 ^ 64 := by
  unfold BN.byteLength BN.bitLength
  rw [← bitLengthAux_le_iff a.natAbs a.natAbs 64 le_rfl]
  omega

theorem toArrayLike_eight (a : BN) (h : a.natAbs < 2 ^ 64) :
    BN.toArrayLike a 8 = .ok (leBytes a.natAbs 8) := by
  unfold BN.toArrayLike
  simp [(byteLength_le_eight_iff a).2 h]

theorem toArrayLike_eight_error (a : BN) (h : 2 ^ 64 ≤ a.natAbs) :
    BN.toArrayLike a 8 = .error "byte array longer than desired length" := by
  unfold BN.toArrayLike
  have : ¬ BN.byteLength a ≤ 8 := by
    rw [byteLength_le_eight_iff]; omega
  simp [this]

theorem leBytes_length (len : Nat) : ∀ m, (leBytes m len).length = len := by
  induction len with
  | zero => intro m; rfl
  | succ len ih => intro m; simp [leBytes, ih]

theorem leBytes_lt (len : Nat) : ∀ m, ∀ b ∈ leBytes m len, b < 256 := by
  induction len with
  | zero => intro m b hb; simp [leBytes] at hb
  | succ len ih =>
    intro m b hb
    simp only [leBytes, List.mem_cons] at hb
    rcases hb with rfl | hb
    · exact Nat.mod_lt _ (by decide)
    · exact ih _ b hb

theorem leValue_leBytes (len : Nat) : ∀ m, m < 256 ^ len → leValue (leBytes m len) = m := by
  induction len with
  | zero => intro m hm; simp at hm; subst hm; rfl
  | succ len ih =>
    intro m hm
    have hd : m / 256 < 256 ^ len := by
      rw [Nat.div_lt_iff_lt_mul (by decide)]
      rw [pow_succ] at hm; exact hm
    simp only [leBytes, leValue, ih _ hd]
    omega

theorem digitChar_toNat (d : Nat) (h : d < 10) : (Nat.digitChar d).toNat = 48 + d := by
  interval_cases d <;> rfl

theorem parseBaseStep_digitChar (r d : Nat) (h : d < 10) :
    parseBaseStep 10 r (Nat.digitChar d) = .ok (r * 10 + d) := by
  unfold parseBaseStep
  simp only [digitChar_toNat d h]
  have h1 : ¬ (49 : Int) ≤ ((48 + d : Nat) : Int) - 48 := by omega
  have h2 : ¬ (17 : Int) ≤ ((48 + d : Nat) : Int) - 48 := by omega
  simp only [h1, h2, if_false]
  have h3 : (0 : Int) ≤ ((48 + d : Nat) : Int) - 48 ∧ ((48 + d : Nat) : Int) - 48 < ((10 : Nat) : Int) := by
    constructor <;> omega
  rw [if_pos h3]
  congr 2
  omega

theorem digitChar_not_whitespace (d : Nat) (h : d < 10) :
    isWhitespace (Nat.digitChar d) = false := by
  interval_cases d <;> rfl

theorem digitChar_ne_minus (d : Nat) (h : d < 10) : Nat.digitChar d ≠ '-' := by
  interval_cases d <;> decide

theorem toDigitsCore_append (fuel : Nat) : ∀ (n : Nat) (ds : List Char),
    Nat.toDigitsCore 10 fuel n ds = Nat.toDigitsCore 10 fuel n [] ++ ds := by
  induction fuel with
  | zero => intro n ds; simp [Nat.toDigitsCore]
  | succ fuel ih =>
    intro n ds
    simp only [Nat.toDigitsCore]
    split
    · simp
    · rw [ih (n / 10) (Nat.digitChar (n % 10) :: ds), ih (n / 10) [Nat.digitChar (n % 10)]]
      simp

theorem toDigitsCore_digits (fuel : Nat) : ∀ n : Nat,
    ∀ c ∈ Nat.toDigitsCore 10 fuel n [], ∃ d, d < 10 ∧ c = Nat.digitChar d := by
  induction fuel with
  | zero => intro n c hc; simp [Nat.toDigitsCore] at hc
  | succ fuel ih =>
    intro n c hc
    simp only [Nat.toDigitsCore] at hc
    split at hc
    · simp only [List.mem_singleton] at hc
      exact ⟨n % 10, Nat.mod_lt _ (by decide), hc⟩
    · rw [toDigitsCore_append] at hc
      simp only [List.mem_append, List.mem_singleton] at hc
      rcases hc with hc | hc
      · exact ih _ c hc
      · exact ⟨n % 10, Nat.mod_lt _ (by decide), hc⟩

theorem toDigitsCore_ne_nil (fuel n : Nat) : Nat.toDigitsCore 10 (fuel + 1) n [] ≠ [] := by
  simp only [Nat.toDigitsCore]
  split
  · simp
  · rw [toDigitsCore_append]; simp

theorem parseBase_toDigitsCore (fuel : Nat) : ∀ n : Nat, n < fuel →
    parseBase (Nat.toDigitsCore 10 fuel n []) 10 = .ok n := by
  induction fuel with
  | zero => intro n hn; omega
  | succ fuel ih =>
    intro n hn
    simp only [Nat.toDigitsCore]
    split
    · rename_i h0
      have hlt : n < 10 := by omega
      simp only [parseBase, List.foldlM_cons, List.foldlM_nil]
      rw [parseBaseStep_digitChar 0 (n % 10) (Nat.mod_lt _ (by decide))]
      simp [bind, Except.bind, pure, Except.pure]
      omega
    · rename_i h0
      have hd : n / 10 < fuel := by omega
      rw [toDigitsCore_append]
      have := ih (n / 10) hd
      simp only [parseBase] at this ⊢
      rw [List.foldlM_append, this]
      simp only [bind, Except.bind, List.foldlM_cons, List.foldlM_nil]
      rw [parseBaseStep_digitChar _ (n % 10) (Nat.mod_lt _ (by decide))]
      simp [pure, Except.pure]
      omega

theorem newBN_repr (n : Nat) : newBN (.str (Nat.repr n)) = .ok (n : Int) := by
  have hne := toDigitsCore_ne_nil n n
  have hdig := toDigitsCore_digits (n + 1) n
  have hparse := parseBase_toDigitsCore (n + 1) n (Nat.lt_succ_self n)
  have hfilter : (Nat.toDigitsCore 10 (n + 1) n []).filter (fun c => !isWhitespace c)
      = Nat.toDigitsCore 10 (n + 1) n [] := by
    rw [List.filter_eq_self]
    intro c hc
    obtain ⟨d, hd, rfl⟩ := hdig c hc
    simp [digitChar_not_whitespace d hd]
  have hs : Nat.repr n ≠ "" := by
    intro h
    apply hne
    have := congrArg String.toList h
    simpa [Nat.repr, Nat.toDigits, List.asString] using this
  simp only [newBN]
  rw [if_neg hs]
  have htl : (Nat.repr n).toList = Nat.toDigitsCore 10 (n + 1) n [] := by
    simp [Nat.repr, Nat.toDigits, List.asString]
  simp only [htl, hfilter]
  generalize hl : Nat.toDigitsCore 10 (n + 1) n [] = l at *
  match l, hne, hdig, hparse with
  | c :: cs, _, hdig, hparse =>
    obtain ⟨d, hd, rfl⟩ := hdig c (List.mem_cons_self _ _)
    have hm := digitChar_ne_minus d hd
    split
    · simp_all
    · simp_all
    · simp_all
    · rw [hparse]; rfl

/-! ## The two files agree, handler by handler -/

theorem api_createRoom_eq : @Api.createRoom σ PK St = Server.createRoom := rfl
theorem api_joinRoom_eq : @Api.joinRoom σ PK St = Server.joinRoom := rfl
theorem api_endGame_eq : @Api.endGame σ PK St = Server.endGame := rfl
theorem api_fetchRoom_eq : @Api.fetchRoom σ PK St = Server.fetchRoom := rfl
theorem api_init_eq : @Api.init σ PK St = Server.init := rfl

theorem createRoom_eq_server (f : SourceFile) : @createRoom σ PK St f = Server.createRoom := by
  cases f <;> rfl

theorem toString_natCast (n : Nat) : BN.toString (n : Int) = Nat.repr n := by
  simp [BN.toString]

theorem toArrayLike_eight_ok (a : BN) (key : Bytes) (h : BN.toArrayLike a 8 = .ok key) :
    a.natAbs < 2 ^ 64 ∧ key = leBytes a.natAbs 8 := by
  by_cases hlt : a.natAbs < 2 ^ 64
  · rw [toArrayLike_eight a hlt] at h
    simp only [Except.ok.injEq] at h
    exact ⟨hlt, h.symm⟩
  · rw [toArrayLike_eight_error a (by omega)] at h
    simp at h

theorem joinRoom_eq_server (f : SourceFile) : @joinRoom σ PK St f = Server.joinRoom := by
  cases f <;> rfl

theorem endGame_eq_server (f : SourceFile) : @endGame σ PK St f = Server.endGame := by
  cases f <;> rfl

theorem fetchRoom_eq_server (f : SourceFile) : @fetchRoom σ PK St f = Server.fetchRoom := by
  cases f <;> rfl

theorem init_eq_server (f : SourceFile) : @init σ PK St f = Server.init := by
  cases f <;> rfl

theorem newBN_toArrayLike (v : JsVal) (n : Nat) (h : newBN v = .ok (n : Int)) (hn : n < 2 ^ 64) :
    (newBN v).bind (fun a => BN.toArrayLike a 8) = .ok (leBytes n 8) := by
  rw [h]
  simp only [Except.bind]
  rw [toArrayLike_eight _ (by simpa using hn)]
  simp

theorem derivedSeeds_joinRoom (W : World σ PK St) (body : Body) (s : σ) (key : Bytes)
    (h : (newBN body.roomId).bind (fun a => BN.toArrayLike a 8) = .ok key) :
    derivedSeeds (Server.joinRoom W body s).trace = [[Buffer_from "room", key]] := by
  unfold Server.joinRoom
  simp only [h]
  rcases h1 : W.findProgramAddress [Buffer_from "room", key] W.programId with e | ⟨room, bump⟩
  · simp [h1, fail, derivedSeeds]
  rcases h2 : W.newPublicKey body.playerPublicKey with e | player
  · simp [h1, h2, fail, derivedSeeds]
  rcases h3 : W.rpc s (Instruction.joinRoom room player W.systemProgramId) with ⟨e | u, s1⟩
  · simp [h1, h2, h3, fail, derivedSeeds]
  · simp [h1, h2, h3, fail, derivedSeeds]

theorem derivedSeeds_endGame (W : World σ PK St) (body : Body) (s : σ) (key : Bytes)
    (h : (newBN body.roomId).bind (fun a => BN.toArrayLike a 8) = .ok key) :
    derivedSeeds (Server.endGame W body s).trace = [[Buffer_from "room", key]] := by
  unfold Server.endGame
  simp only [h]
  rcases h1 : W.findProgramAddress [Buffer_from "room", key] W.programId with e | ⟨room, bump⟩
  · simp [h1, fail, derivedSeeds]
  rcases h2 : W.newPublicKey body.winnerPublicKey with e | winner
  · simp [h1, h2, fail, derivedSeeds]
  rcases h3 : W.rpc s (Instruction.endGame winner room winner W.systemProgramId) with ⟨e | u, s1⟩
  · simp [h1, h2, h3, fail, derivedSeeds]
  · simp [h1, h2, h3, fail, derivedSeeds]

theorem derivedSeeds_fetchRoom (W : World σ PK St) (roomId : String) (s : σ) (key : Bytes)
    (h : (newBN (.str roomId)).bind (fun a => BN.toArrayLike a 8) = .ok key) :
    derivedSeeds (Server.fetchRoom W roomId s).trace = [[Buffer_from "room", key]] := by
  unfold Server.fetchRoom
  simp only [h]
  rcases h1 : W.findProgramAddress [Buffer_from "room", key] W.programId with e | ⟨room, bump⟩
  · simp [h1, fail, derivedSeeds]
  rcases h2 : W.fetchRoom s room with ⟨e | acc, s1⟩
  · simp [h1, h2, fail, derivedSeeds]
  · simp [h1, h2, fail, derivedSeeds]

theorem derivedSeeds_createRoom (W : World σ PK St) (body : Body) (s : σ) (address : PK)
    (acc : GlobalState) (key : Bytes)
    (hread : Event.fetchGlobalState address (.ok acc) ∈ (Server.createRoom W body s).trace)
    (hkey : BN.toArrayLike (BN.addn acc.totalRooms 1) 8 = .ok key) :
    derivedSeeds (Server.createRoom W body s).trace
      = [[Buffer_from "global-state"], [Buffer_from "room", key]] := by
  unfold Server.createRoom at *
  simp only [] at *
  rcases h1 : W.findProgramAddress [Buffer_from "global-state"] W.programId with e | ⟨gs, bump⟩
  · simp [h1, fail] at hread
  rcases h2 : W.fetchGlobalState s gs with ⟨e | acc1, s1⟩
  · simp [h1, h2, fail] at hread
  have hacc : acc1 = acc := by
    rcases h3 : BN.toArrayLike (BN.addn acc1.totalRooms 1) 8 with e | key1
    · simp [h1, h2, h3, fail] at hread; exact hread.2.symm
    rcases h4 : W.findProgramAddress [Buffer_from "room", key1] W.programId with e | ⟨room, bump2⟩
    · simp [h1, h2, h3, h4, fail] at hread; exact hread.2.symm
    rcases h5 : W.newPublicKey body.creatorPublicKey with e | creator
    · simp [h1, h2, h3, h4, h5, fail] at hread; exact hread.2.symm
    rcases h6 : W.rpc s1 (Instruction.createRoom room gs creator W.systemProgramId) with ⟨e | u, s2⟩
    · simp [h1, h2, h3, h4, h5, h6, fail] at hread; exact hread.2.symm
    · simp [h1, h2, h3, h4, h5, h6] at hread; exact hread.2.symm
  subst hacc
  simp only [h1, h2, hkey]
  rcases h4 : W.findProgramAddress [Buffer_from "room", key] W.programId with e | ⟨room, bump2⟩
  · simp [h4, fail, derivedSeeds]
  rcases h5 : W.newPublicKey body.creatorPublicKey with e | creator
  · simp [h4, h5, fail, derivedSeeds]
  rcases h6 : W.rpc s1 (Instruction.createRoom room gs creator W.systemProgramId) with ⟨e | u, s2⟩
  · simp [h4, h5, h6, fail, derivedSeeds]
  · simp [h4, h5, h6, fail, derivedSeeds]

/-! ## Successful room creations -/

theorem repr_injective : Function.Injective Nat.repr := by
  intro a b hab
  have ha := newBN_repr a
  rw [hab, newBN_repr b] at ha
  simp only [Except.ok.injEq] at ha
  exact_mod_cast ha.symm

theorem createRoom_success (W : World σ PK St) (counter : σ → Nat)
    (hfetch : ∀ s a acc s1, W.fetchGlobalState s a = (.ok acc, s1) →
      acc.totalRooms = (counter s : Int) ∧ counter s1 = counter s)
    (hrpc : ∀ s room gs creator sys s1,
      W.rpc s (.createRoom room gs creator sys) = (.ok (), s1) → counter s1 = counter s + 1)
    (body : Body) (s : σ)
    (hok : (Server.createRoom W body s).response.success = true) :
    (Server.createRoom W body s).response = ⟨200, .roomId true (Nat.repr (counter s + 1))⟩
    ∧ counter (Server.createRoom W body s).state = counter s + 1 := by
  unfold Server.createRoom at *
  simp only [] at *
  rcases h1 : W.findProgramAddress [Buffer_from "global-state"] W.programId with e | ⟨gs, bump⟩
  · simp [h1, fail, Response.success] at hok
  rcases h2 : W.fetchGlobalState s gs with ⟨e | acc, s1⟩
  · simp [h1, h2, fail, Response.success] at hok
  rcases h3 : BN.toArrayLike (BN.addn acc.totalRooms 1) 8 with e | key
  · simp [h1, h2, h3, fail, Response.success] at hok
  rcases h4 : W.findProgramAddress [Buffer_from "room", key] W.programId with e | ⟨room, bump2⟩
  · simp [h1, h2, h3, h4, fail, Response.success] at hok
  rcases h5 : W.newPublicKey body.creatorPublicKey with e | creator
  · simp [h1, h2, h3, h4, h5, fail, Response.success] at hok
  rcases h6 : W.rpc s1 (Instruction.createRoom room gs creator W.systemProgramId) with ⟨e | u, s2⟩
  · simp [h1, h2, h3, h4, h5, h6, fail, Response.success] at hok
  obtain ⟨hacc, hs1⟩ := hfetch s gs acc s1 h2
  have hs2 := hrpc s1 room gs creator W.systemProgramId s2 h6
  simp only [h1, h2, h3, h4, h5, h6]
  refine ⟨?_, by omega⟩
  have : BN.addn acc.totalRooms (1 : Nat) = ((counter s + 1 : Nat) : Int) := by
    simp [BN.addn, hacc]
  rw [this, toString_natCast]

theorem runCreateRooms_success (f : SourceFile) (W : World σ PK St) (counter : σ → Nat)
    (hfetch : ∀ s a acc s1, W.fetchGlobalState s a = (.ok acc, s1) →
      acc.totalRooms = (counter s : Int) ∧ counter s1 = counter s)
    (hrpc : ∀ s room gs creator sys s1,
      W.rpc s (.createRoom room gs creator sys) = (.ok (), s1) → counter s1 = counter s + 1)
    (bodies : List Body) : ∀ s : σ,
    (∀ r ∈ (runCreateRooms f W bodies s).1, r.success = true) →
    (runCreateRooms f W bodies s).1
        = (List.range bodies.length).map
            (fun i => ⟨200, .roomId true (Nat.repr (counter s + (i + 1)))⟩)
    ∧ counter (runCreateRooms f W bodies s).2 = counter s + bodies.length := by
  induction bodies with
  | nil => intro s _; simp [runCreateRooms]
  | cons body rest ih =>
    intro s hall
    simp only [runCreateRooms] at hall ⊢
    have hhead : (createRoom f W body s).response.success = true :=
      hall _ (List.mem_cons_self _ _)
    rw [createRoom_eq_server] at hhead
    obtain ⟨hresp, hstate⟩ := createRoom_success W counter hfetch hrpc body s hhead
    have htail := ih (createRoom f W body s).state
      (fun r hr => hall r (List.mem_cons_of_mem _ hr))
    rw [createRoom_eq_server] at htail ⊢
    rw [hstate] at htail
    refine ⟨?_, ?_⟩
    · simp only [List.length_cons, List.range_succ_eq_map, List.map_cons, List.map_map]
      rw [hresp, htail.1]
      simp only [List.cons.injEq, true_and]
      apply List.map_congr_left
      intro i _
      simp only [Function.comp, Nat.succ_eq_add_one]
      congr 3
      omega
    · rw [htail.2]; simp only [List.length_cons]; omega

/-! ## Seeds derived by a request -/

theorem roomSeeds_natCast (n : Nat) (h : n < 2 ^ 64) :
    roomSeeds (n : Int) = .ok [Buffer_from "room", leBytes n 8] := by
  have := toArrayLike_eight (n : Int) (by simpa using h)
  simp only [Int.natAbs_ofNat] at this
  simp [roomSeeds, this, Except.map]

theorem leBytes_eight_injective (m n : Nat) (hm : m < 2 ^ 64) (hn : n < 2 ^ 64)
    (h : leBytes m 8 = leBytes n 8) : m = n := by
  have h1 := leValue_leBytes 8 m (by simpa using hm)
  have h2 := leValue_leBytes 8 n (by simpa using hn)
  rw [← h1, ← h2, h]

theorem derivedSeeds_joinRoom_eq (W : World σ PK St) (body : Body) (s : σ) :
    derivedSeeds (Server.joinRoom W body s).trace = requestSeeds body.roomId := by
  unfold requestSeeds
  rcases h : (newBN body.roomId).bind (fun a => BN.toArrayLike a 8) with e | key
  · unfold Server.joinRoom
    simp [h, fail, derivedSeeds]
  · exact derivedSeeds_joinRoom W body s key h

theorem derivedSeeds_endGame_eq (W : World σ PK St) (body : Body) (s : σ) :
    derivedSeeds (Server.endGame W body s).trace = requestSeeds body.roomId := by
  unfold requestSeeds
  rcases h : (newBN body.roomId).bind (fun a => BN.toArrayLike a 8) with e | key
  · unfold Server.endGame
    simp [h, fail, derivedSeeds]
  · exact derivedSeeds_endGame W body s key h

theorem derivedSeeds_fetchRoom_eq (W : World σ PK St) (roomId : String) (s : σ) :
    derivedSeeds (Server.fetchRoom W roomId s).trace = requestSeeds (.str roomId) := by
  unfold requestSeeds
  rcases h : (newBN (.str roomId)).bind (fun a => BN.toArrayLike a 8) with e | key
  · unfold Server.fetchRoom
    simp [h, fail, derivedSeeds]
  · exact derivedSeeds_fetchRoom W roomId s key h

/-! ## The demonstration ledger keeps a counter -/

theorem demoWorld_fetch_counter (s : Ledger) (a : Key) (acc : GlobalState) (s1 : Ledger)
    (h : demoWorld.fetchGlobalState s a = (.ok acc, s1)) :
    acc.totalRooms = ((s.totalRooms.getD 0 : Nat) : Int)
      ∧ s1.totalRooms.getD 0 = s.totalRooms.getD 0 := by
  simp only [demoWorld] at h
  rcases hk : s.totalRooms with _ | k
  · simp [hk] at h
  · simp only [hk] at h
    split at h
    · simp only [Prod.mk.injEq, Except.ok.injEq] at h
      obtain ⟨hacc, hs⟩ := h
      subst hacc hs
      simp [hk]
    · simp at h

theorem demoWorld_rpc_counter (s : Ledger) (room gs creator sys : Key) (s1 : Ledger)
    (h : demoWorld.rpc s (.createRoom room gs creator sys) = (.ok (), s1)) :
    s1.totalRooms.getD 0 = s.totalRooms.getD 0 + 1 := by
  simp only [demoWorld, Ledger.rpc] at h
  rcases hk : s.totalRooms with _ | k
  · simp [hk] at h
  · simp only [hk] at h
    split at h
    · simp at h
    · split at h
      · simp only [Prod.mk.injEq, true_and] at h
        subst h
        simp
      · simp at h

/-! ## The first external call of a room request -/

theorem joinRoom_head (W : World σ PK St) (body : Body) (s : σ) (key : Bytes)
    (h : (newBN body.roomId).bind (fun a => BN.toArrayLike a 8) = .ok key) :
    (Server.joinRoom W body s).trace.head? = some (Event.findProgramAddress
      [Buffer_from "room", key] (W.findProgramAddress [Buffer_from "room", key] W.programId)) := by
  unfold Server.joinRoom
  simp only [h]
  rcases h1 : W.findProgramAddress [Buffer_from "room", key] W.programId with e | ⟨room, bump⟩
  · simp [h1, fail]
  rcases h2 : W.newPublicKey body.playerPublicKey with e | player
  · simp [h1, h2, fail]
  rcases h3 : W.rpc s (Instruction.joinRoom room player W.systemProgramId) with ⟨e | u, s1⟩
  · simp [h1, h2, h3, fail]
  · simp [h1, h2, h3, fail]

theorem endGame_head (W : World σ PK St) (body : Body) (s : σ) (key : Bytes)
    (h : (newBN body.roomId).bind (fun a => BN.toArrayLike a 8) = .ok key) :
    (Server.endGame W body s).trace.head? = some (Event.findProgramAddress
      [Buffer_from "room", key] (W.findProgramAddress [Buffer_from "room", key] W.programId)) := by
  unfold Server.endGame
  simp only [h]
  rcases h1 : W.findProgramAddress [Buffer_from "room", key] W.programId with e | ⟨room, bump⟩
  · simp [h1, fail]
  rcases h2 : W.newPublicKey body.winnerPublicKey with e | winner
  · simp [h1, h2, fail]
  rcases h3 : W.rpc s (Instruction.endGame winner room winner W.systemProgramId) with ⟨e | u, s1⟩
  · simp [h1, h2, h3, fail]
  · simp [h1, h2, h3, fail]

theorem fetchRoom_head (W : World σ PK St) (roomId : String) (s : σ) (key : Bytes)
    (h : (newBN (.str roomId)).bind (fun a => BN.toArrayLike a 8) = .ok key) :
    (Server.fetchRoom W roomId s).trace.head? = some (Event.findProgramAddress
      [Buffer_from "room", key] (W.findProgramAddress [Buffer_from "room", key] W.programId)) := by
  unfold Server.fetchRoom
  simp only [h]
  rcases h1 : W.findProgramAddress [Buffer_from "room", key] W.programId with e | ⟨room, bump⟩
  · simp [h1, fail]
  rcases h2 : W.fetchRoom s room with ⟨e | acc, s1⟩
  · simp [h1, h2, fail]
  · simp [h1, h2, fail]

theorem createRoom_after_read (W : World σ PK St) (body : Body) (s : σ) (address : PK)
    (acc : GlobalState) (key : Bytes)
    (hread : Event.fetchGlobalState address (.ok acc) ∈ (Server.createRoom W body s).trace)
    (hkey : BN.toArrayLike (BN.addn acc.totalRooms 1) 8 = .ok key) :
    Event.findProgramAddress [Buffer_from "room", key]
        (W.findProgramAddress [Buffer_from "room", key] W.programId)
      ∈ (Server.createRoom W body s).trace
    ∧ ((Server.createRoom W body s).response.success = true →
        (Server.createRoom W body s).response
          = ⟨200, .roomId true (BN.toString (BN.addn acc.totalRooms 1))⟩) := by
  unfold Server.createRoom at *
  simp only [] at *
  rcases h1 : W.findProgramAddress [Buffer_from "global-state"] W.programId with e | ⟨gs, bump⟩
  · simp [h1, fail] at hread
  rcases h2 : W.fetchGlobalState s gs with ⟨e | acc1, s1⟩
  · simp [h1, h2, fail] at hread
  have hacc : acc1 = acc := by
    rcases h3 : BN.toArrayLike (BN.addn acc1.totalRooms 1) 8 with e | key1
    · simp [h1, h2, h3, fail] at hread; exact hread.2.symm
    rcases h4 : W.findProgramAddress [Buffer_from "room", key1] W.programId with e | ⟨room, bump2⟩
    · simp [h1, h2, h3, h4, fail] at hread; exact hread.2.symm
    rcases h5 : W.newPublicKey body.creatorPublicKey with e | creator
    · simp [h1, h2, h3, h4, h5, fail] at hread; exact hread.2.symm
    rcases h6 : W.rpc s1 (Instruction.createRoom room gs creator W.systemProgramId) with ⟨e | u, s2⟩
    · simp [h1, h2, h3, h4, h5, h6, fail] at hread; exact hread.2.symm
    · simp [h1, h2, h3, h4, h5, h6] at hread; exact hread.2.symm
  subst hacc
  simp only [h1, h2, hkey]
  rcases h4 : W.findProgramAddress [Buffer_from "room", key] W.programId with e | ⟨room, bump2⟩
  · simp [h4, fail, Response.success]
  rcases h5 : W.newPublicKey body.creatorPublicKey with e | creator
  · simp [h4, h5, fail, Response.success]
  rcases h6 : W.rpc s1 (Instruction.createRoom room gs creator W.systemProgramId) with ⟨e | u, s2⟩
  · simp [h4, h5, h6, fail, Response.success]
  · simp [h4, h5, h6, fail, Response.success]

/-! ## Shape of failures, handler by handler -/

theorem init_shape (W : World σ PK St) (s : σ) : FailureShape (Server.init W s) := by
  unfold Server.init FailureShape
  simp only []
  rcases h1 : W.findProgramAddress [Buffer_from "global-state"] W.programId with e | ⟨gs, bump⟩
  · simp [h1, fail, Event.error?]
  rcases h2 : W.rpc s (Instruction.init bump gs W.walletPublicKey W.systemProgramId)
    with ⟨e | u, s1⟩
  · simp [h1, h2, fail, Event.error?]
  · simp [h1, h2, fail, Event.error?, Response.success]

theorem createRoom_shape (W : World σ PK St) (body : Body) (s : σ) :
    FailureShape (Server.createRoom W body s) := by
  unfold Server.createRoom FailureShape
  simp only []
  rcases h1 : W.findProgramAddress [Buffer_from "global-state"] W.programId with e | ⟨gs, bump⟩
  · simp [h1, fail, Event.error?]
  rcases h2 : W.fetchGlobalState s gs with ⟨e | acc, s1⟩
  · simp [h1, h2, fail, Event.error?]
  rcases h3 : BN.toArrayLike (BN.addn acc.totalRooms 1) 8 with e | key
  · simp [h1, h2, h3, fail, Event.error?]
  rcases h4 : W.findProgramAddress [Buffer_from "room", key] W.programId with e | ⟨room, bump2⟩
  · simp [h1, h2, h3, h4, fail, Event.error?]
  rcases h5 : W.newPublicKey body.creatorPublicKey with e | creator
  · simp [h1, h2, h3, h4, h5, fail, Event.error?]
  rcases h6 : W.rpc s1 (Instruction.createRoom room gs creator W.systemProgramId) with ⟨e | u, s2⟩
  · simp [h1, h2, h3, h4, h5, h6, fail, Event.error?]
  · simp [h1, h2, h3, h4, h5, h6, fail, Event.error?, Response.success]

theorem joinRoom_shape (W : World σ PK St) (body : Body) (s : σ) :
    FailureShape (Server.joinRoom W body s) := by
  unfold Server.joinRoom FailureShape
  simp only []
  rcases h0 : (newBN body.roomId).bind (fun a => BN.toArrayLike a 8) with e | key
  · simp [h0, fail, Event.error?]
  rcases h1 : W.findProgramAddress [Buffer_from "room", key] W.programId with e | ⟨room, bump⟩
  · simp [h0, h1, fail, Event.error?]
  rcases h2 : W.newPublicKey body.playerPublicKey with e | player
  · simp [h0, h1, h2, fail, Event.error?]
  rcases h3 : W.rpc s (Instruction.joinRoom room player W.systemProgramId) with ⟨e | u, s1⟩
  · simp [h0, h1, h2, h3, fail, Event.error?]
  · simp [h0, h1, h2, h3, fail, Event.error?, Response.success]

theorem endGame_shape (W : World σ PK St) (body : Body) (s : σ) :
    FailureShape (Server.endGame W body s) := by
  unfold Server.endGame FailureShape
  simp only []
  rcases h0 : (newBN body.roomId).bind (fun a => BN.toArrayLike a 8) with e | key
  · simp [h0, fail, Event.error?]
  rcases h1 : W.findProgramAddress [Buffer_from "room", key] W.programId with e | ⟨room, bump⟩
  · simp [h0, h1, fail, Event.error?]
  rcases h2 : W.newPublicKey body.winnerPublicKey with e | winner
  · simp [h0, h1, h2, fail, Event.error?]
  rcases h3 : W.rpc s (Instruction.endGame winner room winner W.systemProgramId) with ⟨e | u, s1⟩
  · simp [h0, h1, h2, h3, fail, Event.error?]
  · simp [h0, h1, h2, h3, fail, Event.error?, Response.success]

theorem fetchRoom_shape (W : World σ PK St) (roomId : String) (s : σ) :
    FailureShape (Server.fetchRoom W roomId s) := by
  unfold Server.fetchRoom FailureShape
  simp only []
  rcases h0 : (newBN (.str roomId)).bind (fun a => BN.toArrayLike a 8) with e | key
  · simp [h0, fail, Event.error?]
  rcases h1 : W.findProgramAddress [Buffer_from "room", key] W.programId with e | ⟨room, bump⟩
  · simp [h0, h1, fail, Event.error?]
  rcases h2 : W.fetchRoom s room with ⟨e | acc, s1⟩
  · simp [h0, h1, h2, fail, Event.error?]
  · simp [h0, h1, h2, fail, Event.error?, Response.success]

theorem handle_eq_server (f : SourceFile) (W : World σ PK St) (req : Request) (s : σ) :
    handle f W req s = handle .server W req s := by
  cases f
  · rfl
  · cases req <;> rfl

theorem handle_shape (f : SourceFile) (W : World σ PK St) (req : Request) (s : σ) :
    FailureShape (handle f W req s) := by
  rw [handle_eq_server]
  cases req with
  | init => exact init_shape W s
  | createRoom body => exact createRoom_shape W body s
  | joinRoom body => exact joinRoom_shape W body s
  | endGame body => exact endGame_shape W body s
  | fetchRoom roomId => exact fetchRoom_shape W roomId s

theorem identity_error_fails (W : World σ PK St) (req : Request) (s : σ) (v : JsVal)
    (e : String) (hv : req.identity = some v) (he : W.newPublicKey v = .error e) :
    (handle .server W req s).response.success = false
    ∧ (∀ ev ∈ (handle .server W req s).trace, ev.isSubmit = false)
    ∧ ((∀ body, req ≠ .createRoom body) → ledgerCalls (handle .server W req s).trace = []) := by
  cases req with
  | init => simp [Request.identity] at hv
  | fetchRoom roomId => simp [Request.identity] at hv
  | createRoom body =>
    simp only [Request.identity, Option.some.injEq] at hv
    subst hv
    have hh : handle .server W (.createRoom body) s = Server.createRoom W body s := rfl
    rw [hh]
    unfold Server.createRoom
    simp only []
    rcases h1 : W.findProgramAddress [Buffer_from "global-state"] W.programId with e | ⟨gs, bump⟩
    · simp [h1, fail, Response.success, Event.isSubmit, ledgerCalls, Event.isLedgerCall, Event.isRead]
    rcases h2 : W.fetchGlobalState s gs with ⟨e | acc, s1⟩
    · simp [h1, h2, fail, Response.success, Event.isSubmit, ledgerCalls, Event.isLedgerCall, Event.isRead]
    rcases h3 : BN.toArrayLike (BN.addn acc.totalRooms 1) 8 with e | key
    · simp [h1, h2, h3, fail, Response.success, Event.isSubmit, ledgerCalls, Event.isLedgerCall, Event.isRead]
    rcases h4 : W.findProgramAddress [Buffer_from "room", key] W.programId with e | ⟨room, bump2⟩
    · simp [h1, h2, h3, h4, fail, Response.success, Event.isSubmit, ledgerCalls, Event.isLedgerCall, Event.isRead]
    · simp [h1, h2, h3, h4, he, fail, Response.success, Event.isSubmit, ledgerCalls, Event.isLedgerCall, Event.isRead]
  | joinRoom body =>
    simp only [Request.identity, Option.some.injEq] at hv
    subst hv
    have hh : handle .server W (.joinRoom body) s = Server.joinRoom W body s := rfl
    rw [hh]
    unfold Server.joinRoom
    simp only []
    rcases h0 : (newBN body.roomId).bind (fun a => BN.toArrayLike a 8) with e | key
    · simp [h0, fail, Response.success, ledgerCalls]
    rcases h1 : W.findProgramAddress [Buffer_from "room", key] W.programId with e | ⟨room, bump⟩
    · simp [h0, h1, fail, Response.success, Event.isSubmit, ledgerCalls, Event.isLedgerCall, Event.isRead]
    · simp [h0, h1, he, fail, Response.success, Event.isSubmit, ledgerCalls, Event.isLedgerCall, Event.isRead]
  | endGame body =>
    simp only [Request.identity, Option.some.injEq] at hv
    subst hv
    have hh : handle .server W (.endGame body) s = Server.endGame W body s := rfl
    rw [hh]
    unfold Server.endGame
    simp only []
    rcases h0 : (newBN body.roomId).bind (fun a => BN.toArrayLike a 8) with e | key
    · simp [h0, fail, Response.success, ledgerCalls]
    rcases h1 : W.findProgramAddress [Buffer_from "room", key] W.programId with e | ⟨room, bump⟩
    · simp [h0, h1, fail, Response.success, Event.isSubmit, ledgerCalls, Event.isLedgerCall, Event.isRead]
    · simp [h0, h1, he, fail, Response.success, Event.isSubmit, ledgerCalls, Event.isLedgerCall, Event.isRead]

theorem roomId_error_fails (W : World σ PK St) (req : Request) (s : σ) (v : JsVal)
    (e : String) (hv : req.roomId = some v)
    (he : (newBN v).bind (fun a => BN.toArrayLike a 8) = .error e) :
    (handle .server W req s).response = ⟨500, .error false e⟩
    ∧ (handle .server W req s).trace = [] := by
  cases req with
  | init => simp [Request.roomId] at hv
  | createRoom body => simp [Request.roomId] at hv
  | joinRoom body =>
    simp only [Request.roomId, Option.some.injEq] at hv
    subst hv
    have hh : handle .server W (.joinRoom body) s = Server.joinRoom W body s := rfl
    rw [hh]
    unfold Server.joinRoom
    simp [he, fail]
  | endGame body =>
    simp only [Request.roomId, Option.some.injEq] at hv
    subst hv
    have hh : handle .server W (.endGame body) s = Server.endGame W body s := rfl
    rw [hh]
    unfold Server.endGame
    simp [he, fail]
  | fetchRoom roomId =>
    simp only [Request.roomId, Option.some.injEq] at hv
    subst hv
    have hh : handle .server W (.fetchRoom roomId) s = Server.fetchRoom W roomId s := rfl
    rw [hh]
    unfold Server.fetchRoom
    simp [he, fail]

/-! ## Create-room makes one attempt -/

theorem createRoom_attempts (W : World σ PK St) (body : Body) (s : σ) :
    (Server.createRoom W body s).trace.countP Event.isRead ≤ 1
    ∧ (Server.createRoom W body s).trace.countP Event.isSubmit ≤ 1
    ∧ ∀ ix e, Event.rpc ix (.error e) ∈ (Server.createRoom W body s).trace →
        (Server.createRoom W body s).response = ⟨500, .error false e⟩
        ∧ (Server.createRoom W body s).trace.getLast? = some (Event.rpc ix (.error e)) := by
  unfold Server.createRoom
  simp only []
  rcases h1 : W.findProgramAddress [Buffer_from "global-state"] W.programId with e | ⟨gs, bump⟩
  · simp [h1, fail, Event.isRead, Event.isSubmit]
  rcases h2 : W.fetchGlobalState s gs with ⟨e | acc, s1⟩
  · simp [h1, h2, fail, Event.isRead, Event.isSubmit, List.countP_cons]
  rcases h3 : BN.toArrayLike (BN.addn acc.totalRooms 1) 8 with e | key
  · simp [h1, h2, h3, fail, Event.isRead, Event.isSubmit, List.countP_cons]
  rcases h4 : W.findProgramAddress [Buffer_from "room", key] W.programId with e | ⟨room, bump2⟩
  · simp [h1, h2, h3, h4, fail, Event.isRead, Event.isSubmit, List.countP_cons]
  rcases h5 : W.newPublicKey body.creatorPublicKey with e | creator
  · simp [h1, h2, h3, h4, h5, fail, Event.isRead, Event.isSubmit, List.countP_cons]
  rcases h6 : W.rpc s1 (Instruction.createRoom room gs creator W.systemProgramId) with ⟨e | u, s2⟩
  · simp [h1, h2, h3, h4, h5, h6, fail, Event.isRead, Event.isSubmit, List.countP_cons]
  · simp [h1, h2, h3, h4, h5, h6, fail, Event.isRead, Event.isSubmit, List.countP_cons]

theorem request_reaches_ledger (W : World σ PK St) (req : Request) (s : σ) (v : JsVal)
    (key : Bytes) (room : PK) (bump : Nat) (hv : req.roomId = some v)
    (hkey : (newBN v).bind (fun a => BN.toArrayLike a 8) = .ok key)
    (hfpa : W.findProgramAddress [Buffer_from "room", key] W.programId = .ok (room, bump))
    (hid : ∀ w, req.identity = some w → ∃ p, W.newPublicKey w = .ok p) :
    ledgerCalls (handle .server W req s).trace ≠ [] := by
  cases req with
  | init => simp [Request.roomId] at hv
  | createRoom body => simp [Request.roomId] at hv
  | joinRoom body =>
    simp only [Request.roomId, Option.some.injEq] at hv
    subst hv
    obtain ⟨p, hp⟩ := hid _ rfl
    have hh : handle .server W (.joinRoom body) s = Server.joinRoom W body s := rfl
    rw [hh]
    unfold Server.joinRoom
    simp only [hkey, hfpa, hp]
    rcases h3 : W.rpc s (Instruction.joinRoom room p W.systemProgramId) with ⟨e | u, s1⟩
    · simp [h3, fail, ledgerCalls, Event.isLedgerCall, Event.isRead, Event.isSubmit]
    · simp [h3, fail, ledgerCalls, Event.isLedgerCall, Event.isRead, Event.isSubmit]
  | endGame body =>
    simp only [Request.roomId, Option.some.injEq] at hv
    subst hv
    obtain ⟨p, hp⟩ := hid _ rfl
    have hh : handle .server W (.endGame body) s = Server.endGame W body s := rfl
    rw [hh]
    unfold Server.endGame
    simp only [hkey, hfpa, hp]
    rcases h3 : W.rpc s (Instruction.endGame p room p W.systemProgramId) with ⟨e | u, s1⟩
    · simp [h3, fail, ledgerCalls, Event.isLedgerCall, Event.isRead, Event.isSubmit]
    · simp [h3, fail, ledgerCalls, Event.isLedgerCall, Event.isRead, Event.isSubmit]
  | fetchRoom roomId =>
    simp only [Request.roomId, Option.some.injEq] at hv
    subst hv
    have hh : handle .server W (.fetchRoom roomId) s = Server.fetchRoom W roomId s := rfl
    rw [hh]
    unfold Server.fetchRoom
    simp only [hkey, hfpa]
    rcases h3 : W.fetchRoom s room with ⟨e | acc, s1⟩
    · simp [h3, fail, ledgerCalls, Event.isLedgerCall, Event.isRead, Event.isSubmit]
    · simp [h3, fail, ledgerCalls, Event.isLedgerCall, Event.isRead, Event.isSubmit]

theorem newBN_num_toArrayLike (n : Int) (h : n.natAbs < 2 ^ 53) :
    (newBN (.num n)).bind (fun a => BN.toArrayLike a 8) = .ok (leBytes n.natAbs 8) := by
  simp only [newBN, h, if_true, Except.bind]
  exact toArrayLike_eight n (by omega)

/-! ## Runs of the handlers in a given world -/

theorem createRoom_of_trace (W : World σ PK St) (body : Body)
    (s : σ) (k : Nat) (address : PK) (ix : Instruction PK)
    (hread : Event.fetchGlobalState address (.ok ⟨(k : Int)⟩) ∈ (Server.createRoom W body s).trace)
    (hsubmit : Event.rpc ix (.ok ()) ∈ (Server.createRoom W body s).trace) :
    (Server.createRoom W body s).response = ⟨200, .roomId true (Nat.repr (k + 1))⟩
    ∧ k + 1 < 2 ^ 64
    ∧ ∃ room bump creator,
        W.findProgramAddress [Buffer_from "room", leBytes (k + 1) 8] W.programId = .ok (room, bump)
        ∧ ix = .createRoom room address creator W.systemProgramId := by
  unfold Server.createRoom at *
  simp only [] at *
  rcases h1 : W.findProgramAddress [Buffer_from "global-state"] W.programId with e | ⟨gs, bump⟩
  · simp [h1, fail] at hsubmit
  rcases h2 : W.fetchGlobalState s gs with ⟨e | acc, s1⟩
  · simp [h1, h2, fail] at hsubmit
  rcases h3 : BN.toArrayLike (BN.addn acc.totalRooms 1) 8 with e | key
  · simp [h1, h2, h3, fail] at hsubmit
  rcases h4 : W.findProgramAddress [Buffer_from "room", key] W.programId with e | ⟨room, bump2⟩
  · simp [h1, h2, h3, h4, fail] at hsubmit
  rcases h5 : W.newPublicKey body.creatorPublicKey with e | creator
  · simp [h1, h2, h3, h4, h5, fail] at hsubmit
  rcases h6 : W.rpc s1 (Instruction.createRoom room gs creator W.systemProgramId) with ⟨e | u, s2⟩
  · simp [h1, h2, h3, h4, h5, h6, fail] at hsubmit
  simp [h1, h2, h3, h4, h5, h6] at hsubmit hread ⊢
  obtain ⟨rfl, hacc⟩ := hread
  subst hacc
  obtain ⟨hlt, hkey⟩ := toArrayLike_eight_ok _ _ h3
  have hk : (BN.addn (k : Int) 1).natAbs = k + 1 := by
    simp [BN.addn]; omega
  rw [hk] at hlt hkey
  subst hkey
  refine ⟨?_, by simpa using hlt, room, ⟨bump2, h4⟩, creator, hsubmit⟩
  have : BN.addn (k : Int) (1 : Nat) = ((k + 1 : Nat) : Int) := by simp [BN.addn]
  change BN.toString (BN.addn (k : Int) 1) = _
  rw [this, toString_natCast]

theorem fetchRoom_of_trace (W : World σ PK St) (roomId : String) (s : σ)
    (address : PK) (acc : Room PK St)
    (h : Event.fetchRoom address (.ok acc) ∈ (Server.fetchRoom W roomId s).trace) :
    (Server.fetchRoom W roomId s).response
        = ⟨200, .roomData true
            ⟨W.pkToString acc.creator, BN.toString acc.stakingAmount,
             acc.players.map W.pkToString, acc.state, BN.toString acc.creationTime,
             W.pkToString acc.winner, BN.toString acc.roomId⟩⟩
    ∧ (acc.players.map W.pkToString).length = acc.players.length
    ∧ (∀ i : Nat, (acc.players.map W.pkToString)[i]? = (acc.players[i]?).map W.pkToString)
    ∧ (∀ e ∈ (Server.fetchRoom W roomId s).trace, e.isSubmit = false) := by
  unfold Server.fetchRoom at *
  rcases h0 : (newBN (.str roomId)).bind (fun a => BN.toArrayLike a 8) with e | key
  · simp [h0, fail] at h
  simp only [h0] at h ⊢
  rcases h1 : W.findProgramAddress [Buffer_from "room", key] W.programId with e | ⟨room, bump⟩
  · simp [h1, fail] at h
  rcases h2 : W.fetchRoom s room with ⟨e | acc1, s1⟩
  · simp [h1, h2, fail] at h
  simp [h1, h2] at h ⊢
  obtain ⟨_, hacc⟩ := h
  subst hacc
  simp [Event.isSubmit]

theorem createRoom_run (W : World σ PK St) (body : Body) (s : σ) (acc : GlobalState)
    (key : Bytes) (gs : PK) (bump : Nat) (s1 : σ) (room : PK) (bump2 : Nat) (creator : PK)
    (s2 : σ)
    (hgs : W.findProgramAddress [Buffer_from "global-state"] W.programId = .ok (gs, bump))
    (hread : W.fetchGlobalState s gs = (.ok acc, s1))
    (hkey : BN.toArrayLike (BN.addn acc.totalRooms 1) 8 = .ok key)
    (hroom : W.findProgramAddress [Buffer_from "room", key] W.programId = .ok (room, bump2))
    (hcreator : W.newPublicKey body.creatorPublicKey = .ok creator)
    (hrpc : W.rpc s1 (.createRoom room gs creator W.systemProgramId) = (.ok (), s2)) :
    Server.createRoom W body s
      = ⟨⟨200, .roomId true (BN.toString (BN.addn acc.totalRooms 1))⟩,
         [.findProgramAddress [Buffer_from "global-state"] (.ok (gs, bump)),
          .fetchGlobalState gs (.ok acc),
          .findProgramAddress [Buffer_from "room", key] (.ok (room, bump2)),
          .rpc (.createRoom room gs creator W.systemProgramId) (.ok ())], s2⟩ := by
  unfold Server.createRoom
  simp [hgs, hread, hkey, hroom, hcreator, hrpc]

theorem fetchRoom_run (W : World σ PK St) (roomId : String) (s : σ) (key : Bytes) (room : PK)
    (bump : Nat) (acc : Room PK St) (s1 : σ)
    (hkey : (newBN (.str roomId)).bind (fun a => BN.toArrayLike a 8) = .ok key)
    (hroom : W.findProgramAddress [Buffer_from "room", key] W.programId = .ok (room, bump))
    (hread : W.fetchRoom s room = (.ok acc, s1)) :
    Server.fetchRoom W roomId s
      = ⟨⟨200, .roomData true
            ⟨W.pkToString acc.creator, BN.toString acc.stakingAmount,
             acc.players.map W.pkToString, acc.state, BN.toString acc.creationTime,
             W.pkToString acc.winner, BN.toString acc.roomId⟩⟩,
         [.findProgramAddress [Buffer_from "room", key] (.ok (room, bump)),
          .fetchRoom room (.ok acc)], s1⟩ := by
  unfold Server.fetchRoom
  simp [hkey, hroom, hread]

theorem fetchRoom_trace (W : World σ PK St) (roomId : String) (s : σ) (key : Bytes) (room : PK)
    (bump : Nat)
    (hkey : (newBN (.str roomId)).bind (fun a => BN.toArrayLike a 8) = .ok key)
    (hroom : W.findProgramAddress [Buffer_from "room", key] W.programId = .ok (room, bump)) :
    (Server.fetchRoom W roomId s).trace
      = [.findProgramAddress [Buffer_from "room", key] (.ok (room, bump)),
         .fetchRoom room (W.fetchRoom s room).1] := by
  unfold Server.fetchRoom
  simp only [hkey, hroom]
  rcases h : W.fetchRoom s room with ⟨e | acc, s1⟩
  · simp [h, fail]
  · simp [h]

theorem joinRoom_trace (W : World σ PK St) (body : Body) (s : σ) (key : Bytes) (room : PK)
    (bump : Nat) (player : PK)
    (hkey : (newBN body.roomId).bind (fun a => BN.toArrayLike a 8) = .ok key)
    (hroom : W.findProgramAddress [Buffer_from "room", key] W.programId = .ok (room, bump))
    (hplayer : W.newPublicKey body.playerPublicKey = .ok player) :
    (Server.joinRoom W body s).trace
      = [.findProgramAddress [Buffer_from "room", key] (.ok (room, bump)),
         .rpc (.joinRoom room player W.systemProgramId)
           (W.rpc s (.joinRoom room player W.systemProgramId)).1] := by
  unfold Server.joinRoom
  simp only [hkey, hroom, hplayer]
  rcases h : W.rpc s (Instruction.joinRoom room player W.systemProgramId) with ⟨e | u, s1⟩
  · simp [h, fail]
  · simp [h]

theorem endGame_trace (W : World σ PK St) (body : Body) (s : σ) (key : Bytes) (room : PK)
    (bump : Nat) (winner : PK)
    (hkey : (newBN body.roomId).bind (fun a => BN.toArrayLike a 8) = .ok key)
    (hroom : W.findProgramAddress [Buffer_from "room", key] W.programId = .ok (room, bump))
    (hwinner : W.newPublicKey body.winnerPublicKey = .ok winner) :
    (Server.endGame W body s).trace
      = [.findProgramAddress [Buffer_from "room", key] (.ok (room, bump)),
         .rpc (.endGame winner room winner W.systemProgramId)
           (W.rpc s (.endGame winner room winner W.systemProgramId)).1] := by
  unfold Server.endGame
  simp only [hkey, hroom, hwinner]
  rcases h : W.rpc s (Instruction.endGame winner room winner W.systemProgramId) with ⟨e | u, s1⟩
  · simp [h, fail]
  · simp [h]

theorem createRoom_reads_before_parse (W : World σ PK St) (body : Body) (s : σ) (e : String)
    (gs : PK) (bump : Nat)
    (he : W.newPublicKey body.creatorPublicKey = .error e)
    (hgs : W.findProgramAddress [Buffer_from "global-state"] W.programId = .ok (gs, bump)) :
    ledgerCalls (Server.createRoom W body s).trace
        = [.fetchGlobalState gs (W.fetchGlobalState s gs).1]
    ∧ (∀ acc s1 key room bump2, W.fetchGlobalState s gs = (.ok acc, s1) →
        BN.toArrayLike (BN.addn acc.totalRooms 1) 8 = .ok key →
        W.findProgramAddress [Buffer_from "room", key] W.programId = .ok (room, bump2) →
        Server.createRoom W body s
          = ⟨⟨500, .error false e⟩,
             [.findProgramAddress [Buffer_from "global-state"] (.ok (gs, bump)),
              .fetchGlobalState gs (.ok acc),
              .findProgramAddress [Buffer_from "room", key] (.ok (room, bump2))], s1⟩) := by
  constructor
  · unfold Server.createRoom
    simp only [hgs]
    rcases h2 : W.fetchGlobalState s gs with ⟨e1 | acc, s1⟩
    · simp [h2, fail, ledgerCalls, Event.isLedgerCall, Event.isRead, Event.isSubmit]
    rcases h3 : BN.toArrayLike (BN.addn acc.totalRooms 1) 8 with e1 | key
    · simp [h2, h3, fail, ledgerCalls, Event.isLedgerCall, Event.isRead, Event.isSubmit]
    rcases h4 : W.findProgramAddress [Buffer_from "room", key] W.programId with e1 | ⟨room, b2⟩
    · simp [h2, h3, h4, fail, ledgerCalls, Event.isLedgerCall, Event.isRead, Event.isSubmit]
    · simp [h2, h3, h4, he, fail, ledgerCalls, Event.isLedgerCall, Event.isRead, Event.isSubmit]
  · intro acc s1 key room bump2 hread hkey hroom
    unfold Server.createRoom
    simp [hgs, hread, hkey, hroom, he, fail]

/-! ## Claims -/

/-- C1. CreateRoom returns totalRooms + 1.  In every world where the registry
address is derived, the read of the registry returns the counter `k` (with
`k + 1` below `2^64`), the room address for `k + 1` is derived, the creator
key parses and the ledger accepts the submission, create-room makes exactly
these four calls in this order, names in the submitted transition the address
derived from the seeds `room`, `k + 1` as eight little-endian bytes, leaves
the ledger as the submission left it, and responds with status 200,
`success = true` and `roomId` the decimal rendering of `k + 1`.  Conversely,
whenever the calls of a create-room request include a registry read that
returned `k` and a submission that succeeded, the response is that one, the
submitted room is the address derived from `k + 1`, and `k + 1` is below
`2^64`. -/
theorem createRoom_returns_totalRooms_succ (f : SourceFile) (W : World σ PK St) (body : Body)
    (s : σ) (k : Nat) (gs : PK) (bump : Nat) (s1 : σ) (room : PK) (bump2 : Nat)
    (creator : PK) (s2 : σ)
    (hk : k + 1 < 2 ^ 64)
    (hgs : W.findProgramAddress [Buffer_from "global-state"] W.programId = .ok (gs, bump))
    (hread : W.fetchGlobalState s gs = (.ok ⟨(k : Int)⟩, s1))
    (hroom : W.findProgramAddress [Buffer_from "room", leBytes (k + 1) 8] W.programId
      = .ok (room, bump2))
    (hcreator : W.newPublicKey body.creatorPublicKey = .ok creator)
    (hrpc : W.rpc s1 (.createRoom room gs creator W.systemProgramId) = (.ok (), s2)) :
    (createRoom f W body s).response = ⟨200, .roomId true (Nat.repr (k + 1))⟩
    ∧ (createRoom f W body s).trace
        = [.findProgramAddress [Buffer_from "global-state"] (.ok (gs, bump)),
           .fetchGlobalState gs (.ok ⟨(k : Int)⟩),
           .findProgramAddress [Buffer_from "room", leBytes (k + 1) 8] (.ok (room, bump2)),
           .rpc (.createRoom room gs creator W.systemProgramId) (.ok ())]
    ∧ (createRoom f W body s).state = s2
    ∧ (∀ (other : Body) (t : σ) (j : Nat) (address : PK) (ix : Instruction PK),
        Event.fetchGlobalState address (.ok ⟨(j : Int)⟩) ∈ (createRoom f W other t).trace →
        Event.rpc ix (.ok ()) ∈ (createRoom f W other t).trace →
        (createRoom f W other t).response = ⟨200, .roomId true (Nat.repr (j + 1))⟩
        ∧ j + 1 < 2 ^ 64
        ∧ ∃ r b c, W.findProgramAddress [Buffer_from "room", leBytes (j + 1) 8] W.programId
              = .ok (r, b)
            ∧ ix = .createRoom r address c W.systemProgramId) := by
  have hadd : BN.addn (k : Int) (1 : Nat) = ((k + 1 : Nat) : Int) := by simp [BN.addn]
  have hkey : BN.toArrayLike (BN.addn (⟨(k : Int)⟩ : GlobalState).totalRooms 1) 8
      = .ok (leBytes (k + 1) 8) := by
    show BN.toArrayLike (BN.addn (k : Int) 1) 8 = _
    rw [hadd]
    have := toArrayLike_eight ((k + 1 : Nat) : Int) (by simpa using hk)
    simpa using this
  have hrun := createRoom_run W body s ⟨(k : Int)⟩ (leBytes (k + 1) 8) gs bump s1 room bump2
    creator s2 hgs hread hkey hroom hcreator hrpc
  rw [createRoom_eq_server, hrun]
  refine ⟨?_, rfl, rfl, ?_⟩
  · show (⟨200, .roomId true (BN.toString (BN.addn (k : Int) 1))⟩ : Response St) = _
    rw [hadd, toString_natCast]
  · intro other t j address ix h1 h2
    exact createRoom_of_trace W other t j address ix h1 h2

/-- Right after Initialize (counter 0) the first create-room of the
demonstration world, through either source file, reads the registry, submits
for the address of room 1 and returns room id 1. -/
theorem createRoom_returns_totalRooms_succ_witness :
    (0 : Nat) + 1 < 2 ^ 64
    ∧ demoWorld.fetchGlobalState (registryAt 0) globalStateSeeds
        = (.ok ⟨((0 : Nat) : Int)⟩, registryAt 0)
    ∧ demoWorld.rpc (registryAt 0)
          (.createRoom (roomAddress 1) globalStateSeeds [Buffer_from "alice"]
            demoWorld.systemProgramId)
        = (.ok (), openLedger)
    ∧ (createRoom .server demoWorld (creatorBody "alice") (registryAt 0)).response
        = ⟨200, .roomId true "1"⟩
    ∧ (createRoom .api demoWorld (creatorBody "alice") (registryAt 0)).response
        = ⟨200, .roomId true "1"⟩
    ∧ (createRoom .api demoWorld (creatorBody "alice") (registryAt 0)).trace
        = [.findProgramAddress globalStateSeeds (.ok (globalStateSeeds, 255)),
           .fetchGlobalState globalStateSeeds (.ok ⟨0⟩),
           .findProgramAddress (roomAddress 1) (.ok (roomAddress 1, 255)),
           .rpc (.createRoom (roomAddress 1) globalStateSeeds [Buffer_from "alice"]
             [Buffer_from "system"]) (.ok ())] :=
  ⟨by decide, by decide, by decide,
    (createRoom_returns_totalRooms_succ .server demoWorld (creatorBody "alice") (registryAt 0) 0
      globalStateSeeds 255 (registryAt 0) (roomAddress 1) 255 [Buffer_from "alice"] openLedger
      (by decide) (by decide) (by decide) (by decide) (by decide) (by decide)).1,
    (createRoom_returns_totalRooms_succ .api demoWorld (creatorBody "alice") (registryAt 0) 0
      globalStateSeeds 255 (registryAt 0) (roomAddress 1) 255 [Buffer_from "alice"] openLedger
      (by decide) (by decide) (by decide) (by decide) (by decide) (by decide)).1,
    (createRoom_returns_totalRooms_succ .api demoWorld (creatorBody "alice") (registryAt 0) 0
      globalStateSeeds 255 (registryAt 0) (roomAddress 1) 255 [Buffer_from "alice"] openLedger
      (by decide) (by decide) (by decide) (by decide) (by decide) (by decide)).2.1⟩

/-- C2. Room key encoding: for every room id `n` below `2^64` the room seed
list is the bytes of the tag `room` followed by a key of exactly eight bytes,
each below 256, whose little-endian value is `n`; join-room and end-game
(room id read from the body), fetch-room (room id read from the route) and
create-room (room id `totalRooms + 1`) derive the room address from exactly
that seed list. -/
theorem room_key_encoding (n : Nat) (h : n < 2 ^ 64) :
    ∃ key : Bytes,
      roomSeeds (n : Int) = .ok [Buffer_from "room", key]
      ∧ Buffer_from "room" = [114, 111, 111, 109]
      ∧ key.length = 8 ∧ (∀ b ∈ key, b < 256) ∧ leValue key = n
      ∧ (∀ (σ PK St : Type) (f : SourceFile) (W : World σ PK St) (body : Body) (s : σ),
          newBN body.roomId = .ok (n : Int) →
            derivedSeeds (joinRoom f W body s).trace = [[Buffer_from "room", key]]
            ∧ derivedSeeds (endGame f W body s).trace = [[Buffer_from "room", key]])
      ∧ (∀ (σ PK St : Type) (f : SourceFile) (W : World σ PK St) (roomId : String) (s : σ),
          newBN (.str roomId) = .ok (n : Int) →
            derivedSeeds (fetchRoom f W roomId s).trace = [[Buffer_from "room", key]])
      ∧ (∀ (σ PK St : Type) (f : SourceFile) (W : World σ PK St) (body : Body) (s : σ)
          (address : PK) (acc : GlobalState),
          Event.fetchGlobalState address (.ok acc) ∈ (createRoom f W body s).trace →
          BN.addn acc.totalRooms 1 = (n : Int) →
            derivedSeeds (createRoom f W body s).trace
              = [[Buffer_from "global-state"], [Buffer_from "room", key]]) := by
  have hk : BN.toArrayLike (n : Int) 8 = .ok (leBytes n 8) := by
    have := toArrayLike_eight (n : Int) (by simpa using h)
    simpa using this
  refine ⟨leBytes n 8, ?_, by decide, leBytes_length 8 n, leBytes_lt 8 n,
    leValue_leBytes 8 n (by simpa using h), ?_, ?_, ?_⟩
  · simp [roomSeeds, hk, Except.map]
  · intro σ PK St f W body s hbn
    have hb := newBN_toArrayLike body.roomId n hbn h
    rw [joinRoom_eq_server, endGame_eq_server]
    exact ⟨derivedSeeds_joinRoom W body s _ hb, derivedSeeds_endGame W body s _ hb⟩
  · intro σ PK St f W roomId s hbn
    have hb := newBN_toArrayLike (.str roomId) n hbn h
    rw [fetchRoom_eq_server]
    exact derivedSeeds_fetchRoom W roomId s _ hb
  · intro σ PK St f W body s address acc hread hn
    rw [createRoom_eq_server] at *
    exact derivedSeeds_createRoom W body s address acc _ hread (by rw [hn]; exact hk)

/-- Room id 1 is encoded as the tag and the bytes 1, 0, 0, 0, 0, 0, 0, 0. -/
theorem room_key_encoding_witness :
    (1 : Nat) < 2 ^ 64
    ∧ ∃ key : Bytes, roomSeeds ((1 : Nat) : Int) = .ok [Buffer_from "room", key]
        ∧ key.length = 8 ∧ leValue key = 1 :=
  ⟨by decide, (room_key_encoding 1 (by decide)).imp
    (fun _ h => ⟨h.1, h.2.2.1, h.2.2.2.2.1⟩)⟩

/-- C3. Uniqueness of room ids: against a ledger whose registry reads return
the counter and whose committed room creations increment it by exactly one,
a sequence of create-room requests that all succeed, served one after
another starting from `totalRooms = k`, returns for its `i`-th request the
decimal rendering of `k + i` (counting from 1); these values are strictly
increasing and the returned strings are pairwise distinct. -/
theorem createRoom_ids_increasing (f : SourceFile) (W : World σ PK St) (counter : σ → Nat)
    (hfetch : ∀ s a acc s1, W.fetchGlobalState s a = (.ok acc, s1) →
      acc.totalRooms = (counter s : Int) ∧ counter s1 = counter s)
    (hrpc : ∀ s room gs creator sys s1,
      W.rpc s (.createRoom room gs creator sys) = (.ok (), s1) → counter s1 = counter s + 1)
    (bodies : List Body) (s : σ)
    (hall : ∀ r ∈ (runCreateRooms f W bodies s).1, r.success = true) :
    (runCreateRooms f W bodies s).1
        = (List.range bodies.length).map
            (fun i => ⟨200, .roomId true (Nat.repr (counter s + (i + 1)))⟩)
    ∧ counter (runCreateRooms f W bodies s).2 = counter s + bodies.length
    ∧ ((List.range bodies.length).map (fun i => counter s + (i + 1))).Pairwise (· < ·)
    ∧ ((List.range bodies.length).map (fun i => Nat.repr (counter s + (i + 1)))).Nodup := by
  refine ⟨?_, ?_, ?_, ?_⟩
  · exact (runCreateRooms_success f W counter hfetch hrpc bodies s hall).1
  · exact (runCreateRooms_success f W counter hfetch hrpc bodies s hall).2
  · rw [List.pairwise_map]
    exact (List.pairwise_lt_range _).imp (fun h => by omega)
  · refine (List.nodup_range _).map ?_
    intro a b hab
    have := repr_injective hab
    omega

/-- Two create-room requests on a fresh registry of the demonstration world
return the room ids 1 and 2. -/
theorem createRoom_ids_increasing_witness :
    (∀ r ∈ (runCreateRooms .server demoWorld [creatorBody "alice", creatorBody "bob"]
        (registryAt 0)).1, r.success = true)
    ∧ (runCreateRooms .server demoWorld [creatorBody "alice", creatorBody "bob"]
        (registryAt 0)).1 = [⟨200, .roomId true "1"⟩, ⟨200, .roomId true "2"⟩] :=
  ⟨by decide,
    (createRoom_ids_increasing .server demoWorld (fun l => l.totalRooms.getD 0)
      demoWorld_fetch_counter demoWorld_rpc_counter
      [creatorBody "alice", creatorBody "bob"] (registryAt 0) (by decide)).1⟩

/-- C4. Address derivation is deterministic and separates entities: the seed
list a join-room, end-game or fetch-room request derives from depends on the
room id alone (not on the world, the ledger state or the source file); two
distinct room ids below `2^64` have different room seed lists; the registry
seed list differs from every room seed list; hence, when
`findProgramAddress` is injective on seed lists, distinct rooms get distinct
addresses and no room shares the registry address. -/
theorem seeds_separate_entities (m n : Nat) (hm : m < 2 ^ 64) (hn : n < 2 ^ 64) :
    ∃ sm sn : List Bytes,
      roomSeeds (m : Int) = .ok sm ∧ roomSeeds (n : Int) = .ok sn
      ∧ (m ≠ n → sm ≠ sn)
      ∧ sn ≠ globalStateSeeds
      ∧ (∀ (σ PK St : Type) (W : World σ PK St),
          (∀ s1 s2 a1 a2, W.findProgramAddress s1 W.programId = .ok a1 →
            W.findProgramAddress s2 W.programId = .ok a2 → a1.1 = a2.1 → s1 = s2) →
          ∀ am an ag, W.findProgramAddress sm W.programId = .ok am →
            W.findProgramAddress sn W.programId = .ok an →
            W.findProgramAddress globalStateSeeds W.programId = .ok ag →
            (m ≠ n → am.1 ≠ an.1) ∧ an.1 ≠ ag.1)
      ∧ (∀ (σ PK St τ QK Tt : Type) (f g : SourceFile) (W : World σ PK St) (V : World τ QK Tt)
          (body other : Body) (s : σ) (t : τ), body.roomId = other.roomId →
            derivedSeeds (joinRoom f W body s).trace = derivedSeeds (joinRoom g V other t).trace
            ∧ derivedSeeds (endGame f W body s).trace
                = derivedSeeds (endGame g V other t).trace)
      ∧ (∀ (σ PK St τ QK Tt : Type) (f g : SourceFile) (W : World σ PK St) (V : World τ QK Tt)
          (roomId : String) (s : σ) (t : τ),
            derivedSeeds (fetchRoom f W roomId s).trace
              = derivedSeeds (fetchRoom g V roomId t).trace) := by
  have hne : m ≠ n → [Buffer_from "room", leBytes m 8] ≠ [Buffer_from "room", leBytes n 8] := by
    intro hmn h
    simp only [List.cons.injEq, and_true, true_and] at h
    exact hmn (leBytes_eight_injective m n hm hn h)
  have hg : [Buffer_from "room", leBytes n 8] ≠ globalStateSeeds := by
    simp [globalStateSeeds]
  refine ⟨_, _, roomSeeds_natCast m hm, roomSeeds_natCast n hn, hne, hg, ?_, ?_, ?_⟩
  · intro σ PK St W hinj am an ag h1 h2 h3
    refine ⟨fun hmn h => hne hmn (hinj _ _ _ _ h1 h2 h), fun h => hg (hinj _ _ _ _ h2 h3 h)⟩
  · intro σ PK St τ QK Tt f g W V body other s t hid
    rw [joinRoom_eq_server, joinRoom_eq_server, endGame_eq_server, endGame_eq_server,
      derivedSeeds_joinRoom_eq, derivedSeeds_joinRoom_eq, derivedSeeds_endGame_eq,
      derivedSeeds_endGame_eq, hid]
    exact ⟨rfl, rfl⟩
  · intro σ PK St τ QK Tt f g W V roomId s t
    rw [fetchRoom_eq_server, fetchRoom_eq_server, derivedSeeds_fetchRoom_eq,
      derivedSeeds_fetchRoom_eq]

/-- Rooms 1 and 2 and the registry have three different seed lists. -/
theorem seeds_separate_entities_witness :
    (1 : Nat) < 2 ^ 64 ∧ (2 : Nat) < 2 ^ 64
    ∧ ∃ sm sn : List Bytes,
        roomSeeds ((1 : Nat) : Int) = .ok sm ∧ roomSeeds ((2 : Nat) : Int) = .ok sn
        ∧ sm ≠ sn ∧ sn ≠ globalStateSeeds :=
  ⟨by decide, by decide,
    match seeds_separate_entities 1 2 (by decide) (by decide) with
    | ⟨sm, sn, h1, h2, h3, h4, _⟩ => ⟨sm, sn, h1, h2, h3 (by decide), h4⟩⟩

/-- C5. FetchRoom projection.  In every world where the route parameter
reads as a number that fits in eight bytes, the room address is derived and
the ledger read at that address returns a room account, fetch-room makes
exactly these two calls (the derivation and the read, no submission), leaves
the ledger as the read left it, and responds with status 200,
`success = true` and `roomData` holding the seven fields creator,
stakingAmount, players, state, creationTime, winner and roomId, each taken
from the account field of the same name (state unchanged, the others rendered
as strings); `players` has the length and the order of the account's players.
Conversely, whatever room account appears as returned by a read among the
calls of a fetch-room request is the one projected in the response. -/
theorem fetchRoom_projection (f : SourceFile) (W : World σ PK St) (roomId : String) (s : σ)
    (n : Int) (room : PK) (bump : Nat) (acc : Room PK St) (s1 : σ)
    (hid : newBN (.str roomId) = .ok n) (hn : n.natAbs < 2 ^ 64)
    (hroom : W.findProgramAddress [Buffer_from "room", leBytes n.natAbs 8] W.programId
      = .ok (room, bump))
    (hread : W.fetchRoom s room = (.ok acc, s1)) :
    (fetchRoom f W roomId s).response
        = ⟨200, .roomData true
            ⟨W.pkToString acc.creator, BN.toString acc.stakingAmount,
             acc.players.map W.pkToString, acc.state, BN.toString acc.creationTime,
             W.pkToString acc.winner, BN.toString acc.roomId⟩⟩
    ∧ (fetchRoom f W roomId s).trace
        = [.findProgramAddress [Buffer_from "room", leBytes n.natAbs 8] (.ok (room, bump)),
           .fetchRoom room (.ok acc)]
    ∧ (fetchRoom f W roomId s).state = s1
    ∧ (acc.players.map W.pkToString).length = acc.players.length
    ∧ (∀ i : Nat, (acc.players.map W.pkToString)[i]? = (acc.players[i]?).map W.pkToString)
    ∧ (∀ e ∈ (fetchRoom f W roomId s).trace, e.isSubmit = false)
    ∧ (∀ (other : String) (t : σ) (address : PK) (a : Room PK St),
        Event.fetchRoom address (.ok a) ∈ (fetchRoom f W other t).trace →
        (fetchRoom f W other t).response
          = ⟨200, .roomData true
              ⟨W.pkToString a.creator, BN.toString a.stakingAmount,
               a.players.map W.pkToString, a.state, BN.toString a.creationTime,
               W.pkToString a.winner, BN.toString a.roomId⟩⟩) := by
  have hkey : (newBN (.str roomId)).bind (fun a => BN.toArrayLike a 8)
      = .ok (leBytes n.natAbs 8) := by
    rw [hid]
    simp only [Except.bind]
    exact toArrayLike_eight n hn
  have hrun := fetchRoom_run W roomId s _ room bump acc s1 hkey hroom hread
  rw [fetchRoom_eq_server, hrun]
  refine ⟨rfl, rfl, rfl, by simp, by simp, ?_, ?_⟩
  · intro e he
    simp only [List.mem_cons, List.mem_singleton, List.not_mem_nil, or_false] at he
    rcases he with rfl | rfl <;> rfl
  · intro other t address a h
    exact (fetchRoom_of_trace W other t address a h).1

/-- Fetching room 1 of the demonstration world after alice created it,
through either source file. -/
theorem fetchRoom_projection_witness :
    newBN (.str "1") = .ok 1
    ∧ demoWorld.fetchRoom openLedger (roomAddress 1)
        = (.ok (newRoom 1 [Buffer_from "alice"]), openLedger)
    ∧ (fetchRoom .server demoWorld "1" openLedger).response
        = ⟨200, .roomData true ⟨"alice", "0", ["alice"], "open", "0", "derived", "1"⟩⟩
    ∧ (fetchRoom .api demoWorld "1" openLedger).response
        = ⟨200, .roomData true ⟨"alice", "0", ["alice"], "open", "0", "derived", "1"⟩⟩
    ∧ (fetchRoom .api demoWorld "1" openLedger).trace
        = [.findProgramAddress (roomAddress 1) (.ok (roomAddress 1, 255)),
           .fetchRoom (roomAddress 1) (.ok (newRoom 1 [Buffer_from "alice"]))] :=
  ⟨by decide, by decide,
    (fetchRoom_projection .server demoWorld "1" openLedger 1 (roomAddress 1) 255
      (newRoom 1 [Buffer_from "alice"]) openLedger
      (by decide) (by decide) (by decide) (by decide)).1,
    (fetchRoom_projection .api demoWorld "1" openLedger 1 (roomAddress 1) 255
      (newRoom 1 [Buffer_from "alice"]) openLedger
      (by decide) (by decide) (by decide) (by decide)).1,
    (fetchRoom_projection .api demoWorld "1" openLedger 1 (roomAddress 1) 255
      (newRoom 1 [Buffer_from "alice"]) openLedger
      (by decide) (by decide) (by decide) (by decide)).2.1⟩

/-- C6, as the code has it: the facade validates nothing ahead of its work.
A request whose identity field does not parse as a public key fails with
status 500 and without any transition submission; join-room and end-game then
issue no ledger call at all, while create-room has by then read the registry:
once the registry address is derived, the read of the registry is its one
ledger call, and when that read and the room derivation succeed the response
carries the message of the key that did not parse.  A room id is refused
before any ledger call only when it cannot be read as a number or does not
fit in eight bytes; a zero or negative number is encoded by its magnitude,
and a request whose room id was encoded, whose address was derived and whose
identity (if any) parsed does reach the ledger. -/
theorem malformed_identity_no_submit (f : SourceFile) (W : World σ PK St) (req : Request)
    (s : σ) :
    (∀ v e, req.identity = some v → W.newPublicKey v = .error e →
        (handle f W req s).response.status = 500
        ∧ (handle f W req s).response.success = false
        ∧ (∀ ev ∈ (handle f W req s).trace, ev.isSubmit = false)
        ∧ ((∀ body, req ≠ .createRoom body) → ledgerCalls (handle f W req s).trace = []))
    ∧ (∀ v e, req.roomId = some v →
        (newBN v).bind (fun a => BN.toArrayLike a 8) = .error e →
        (handle f W req s).response = ⟨500, .error false e⟩ ∧ (handle f W req s).trace = [])
    ∧ (∀ n : Int, n.natAbs < 2 ^ 53 →
        (newBN (.num n)).bind (fun a => BN.toArrayLike a 8) = .ok (leBytes n.natAbs 8))
    ∧ (∀ v key room bump, req.roomId = some v →
        (newBN v).bind (fun a => BN.toArrayLike a 8) = .ok key →
        W.findProgramAddress [Buffer_from "room", key] W.programId = .ok (room, bump) →
        (∀ w, req.identity = some w → ∃ p, W.newPublicKey w = .ok p) →
        ledgerCalls (handle f W req s).trace ≠ [])
    ∧ (∀ body e gs bump, req = .createRoom body →
        W.newPublicKey body.creatorPublicKey = .error e →
        W.findProgramAddress [Buffer_from "global-state"] W.programId = .ok (gs, bump) →
        ledgerCalls (handle f W req s).trace
            = [.fetchGlobalState gs (W.fetchGlobalState s gs).1]
        ∧ (∀ acc s1 key room bump2, W.fetchGlobalState s gs = (.ok acc, s1) →
            BN.toArrayLike (BN.addn acc.totalRooms 1) 8 = .ok key →
            W.findProgramAddress [Buffer_from "room", key] W.programId = .ok (room, bump2) →
            handle f W req s
              = ⟨⟨500, .error false e⟩,
                 [.findProgramAddress [Buffer_from "global-state"] (.ok (gs, bump)),
                  .fetchGlobalState gs (.ok acc),
                  .findProgramAddress [Buffer_from "room", key] (.ok (room, bump2))], s1⟩)) := by
  rw [handle_eq_server]
  refine ⟨?_, ?_, newBN_num_toArrayLike, ?_, ?_⟩
  · intro v e hv he
    obtain ⟨h1, h2, h3⟩ := identity_error_fails W req s v e hv he
    refine ⟨?_, h1, h2, h3⟩
    rcases (handle_shape .server W req s).1 with h | ⟨msg, h⟩
    · rw [h.1] at h1; cases h1
    · rw [h]
  · intro v e hv he
    exact roomId_error_fails W req s v e hv he
  · intro v key room bump hv hkey hfpa hid
    exact request_reaches_ledger W req s v key room bump hv hkey hfpa hid
  · intro body e gs bump hreq he hgs
    subst hreq
    exact createRoom_reads_before_parse W body s e gs bump he hgs

/-- A create-room request of the demonstration world with an empty creator
key, through either source file: status 500, nothing submitted, the registry
read. -/
theorem malformed_identity_no_submit_witness :
    (Request.createRoom (creatorBody "")).identity = some (.str "")
    ∧ demoWorld.newPublicKey (.str "") = .error "Invalid public key input"
    ∧ (handle .server demoWorld (.createRoom (creatorBody "")) (registryAt 0)).response.status
        = 500
    ∧ (∀ ev ∈ (handle .server demoWorld (.createRoom (creatorBody "")) (registryAt 0)).trace,
        ev.isSubmit = false)
    ∧ ledgerCalls (handle .api demoWorld (.createRoom (creatorBody "")) (registryAt 0)).trace
        = [.fetchGlobalState globalStateSeeds (.ok ⟨0⟩)] :=
  ⟨rfl, by decide,
    ((malformed_identity_no_submit .server demoWorld (.createRoom (creatorBody ""))
      (registryAt 0)).1 (.str "") "Invalid public key input" rfl (by decide)).1,
    ((malformed_identity_no_submit .server demoWorld (.createRoom (creatorBody ""))
      (registryAt 0)).1 (.str "") "Invalid public key input" rfl (by decide)).2.2.1,
    ((malformed_identity_no_submit .api demoWorld (.createRoom (creatorBody ""))
      (registryAt 0)).2.2.2.2 (creatorBody "") "Invalid public key input" globalStateSeeds 255
      rfl (by decide) (by decide)).1⟩

/-- C6 fails on the code.  In the demonstration world: create-room with a
creator key that does not parse has read the registry; join-room with room
id 0 submits a transition; join-room with room id -1 is served as room 1 and
succeeds; fetch-room and end-game with room id 0 reach the ledger. -/
theorem validation_before_io_counterexample :
    demoWorld.newPublicKey (.str "") = .error "Invalid public key input"
    ∧ ledgerCalls (createRoom .server demoWorld (creatorBody "") (registryAt 0)).trace
        = [.fetchGlobalState globalStateSeeds (.ok ⟨0⟩)]
    ∧ ledgerCalls (joinRoom .server demoWorld (joinBody (.num 0) "bob") openLedger).trace
        = [.rpc (.joinRoom (roomAddress 0) [Buffer_from "bob"] [Buffer_from "system"])
            (.error "RoomNotFound")]
    ∧ (joinRoom .server demoWorld (joinBody (.num (-1)) "bob") openLedger).response
        = ⟨200, .message true "Joined room successfully"⟩
    ∧ ledgerCalls (joinRoom .server demoWorld (joinBody (.num (-1)) "bob") openLedger).trace
        = [.rpc (.joinRoom (roomAddress 1) [Buffer_from "bob"] [Buffer_from "system"])
            (.ok ())]
    ∧ ledgerCalls (fetchRoom .server demoWorld "0" openLedger).trace
        = [.fetchRoom (roomAddress 0) (.error "Account does not exist")]
    ∧ ledgerCalls (endGame .server demoWorld (endBody (.num 0) "alice") openLedger).trace
        = [.rpc (.endGame [Buffer_from "alice"] (roomAddress 0) [Buffer_from "alice"]
            [Buffer_from "system"]) (.error "RoomNotFound")] := by
  decide

/-- C7, as the code has it: every failure reaches the caller, and all
failures look alike.  A response is either a success (status 200, after
calls that all succeeded) or status 500 with `success: false` and an error
message; a failed derivation, read or submission puts its message into the
response; an identity or room id that cannot be read makes the request fail;
and a failure with its message blanked is always the same response, so two
failures differ in their free-text message only. -/
theorem failures_reach_caller (f : SourceFile) (W : World σ PK St) (req : Request) (s : σ) :
    (((handle f W req s).response.success = true
        ∧ (handle f W req s).response.status = 200
        ∧ ∀ ev ∈ (handle f W req s).trace, ev.error? = none)
      ∨ ∃ msg, (handle f W req s).response = ⟨500, .error false msg⟩)
    ∧ (∀ ev ∈ (handle f W req s).trace, ∀ msg, ev.error? = some msg →
        (handle f W req s).response = ⟨500, .error false msg⟩)
    ∧ (∀ v e, req.identity = some v → W.newPublicKey v = .error e →
        (handle f W req s).response.success = false)
    ∧ (∀ v e, req.roomId = some v →
        (newBN v).bind (fun a => BN.toArrayLike a 8) = .error e →
        (handle f W req s).response = ⟨500, .error false e⟩)
    ∧ ((handle f W req s).response.success = false →
        (handle f W req s).response.eraseText = ⟨500, .error false ""⟩) := by
  have hshape := handle_shape f W req s
  refine ⟨hshape.1, hshape.2, ?_, ?_, ?_⟩
  · intro v e hv he
    rw [handle_eq_server]
    exact (identity_error_fails W req s v e hv he).1
  · intro v e hv he
    rw [handle_eq_server]
    exact (roomId_error_fails W req s v e hv he).1
  · intro hs
    rcases hshape.1 with h | ⟨msg, h⟩
    · rw [h.1] at hs; cases hs
    · rw [h]; rfl

/-- A join-room request for a room that does not exist, in the demonstration
world: the ledger's message is the message of the response. -/
theorem failures_reach_caller_witness :
    Event.rpc (.joinRoom (roomAddress 2) [Buffer_from "bob"] [Buffer_from "system"])
        (.error "RoomNotFound")
      ∈ (handle .server demoWorld (.joinRoom (joinBody (.num 2) "bob")) openLedger).trace
    ∧ (handle .server demoWorld (.joinRoom (joinBody (.num 2) "bob")) openLedger).response
        = ⟨500, .error false "RoomNotFound"⟩ :=
  ⟨by decide,
    (failures_reach_caller .server demoWorld (.joinRoom (joinBody (.num 2) "bob"))
      openLedger).2.1
      (Event.rpc (.joinRoom (roomAddress 2) [Buffer_from "bob"] [Buffer_from "system"])
        (.error "RoomNotFound"))
      (by decide) "RoomNotFound" rfl⟩

/-- C7 fails on the code.  In the demonstration world RoomNotFound and
RoomNotOpen on join-room, and AlreadyResolved and WinnerNotAParticipant on
end-game, give responses with the same status and the same body shape; they
differ in the free-text message only. -/
theorem failure_kinds_counterexample :
    (joinRoom .server demoWorld (joinBody (.num 2) "bob") openLedger).response
        = ⟨500, .error false "RoomNotFound"⟩
    ∧ (joinRoom .server demoWorld (joinBody (.num 1) "bob") resolvedLedger).response
        = ⟨500, .error false "RoomNotOpen"⟩
    ∧ (joinRoom .server demoWorld (joinBody (.num 2) "bob") openLedger).response.eraseText
        = (joinRoom .server demoWorld (joinBody (.num 1) "bob") resolvedLedger).response.eraseText
    ∧ (endGame .server demoWorld (endBody (.num 1) "alice") resolvedLedger).response
        = ⟨500, .error false "AlreadyResolved"⟩
    ∧ (endGame .server demoWorld (endBody (.num 1) "carol") openLedger).response
        = ⟨500, .error false "WinnerNotAParticipant"⟩
    ∧ (endGame .server demoWorld (endBody (.num 1) "alice") resolvedLedger).response.eraseText
        = (endGame .server demoWorld (endBody (.num 1) "carol") openLedger).response.eraseText := by
  decide

/-- C8, as the code has it: create-room makes a single attempt.  It reads
the registry at most once and submits at most once; when the submission is
rejected, that rejection is the last call of the request and the response is
status 500 with the ledger's message: there is no second read and no second
submission. -/
theorem createRoom_single_attempt (f : SourceFile) (W : World σ PK St) (body : Body) (s : σ) :
    (createRoom f W body s).trace.countP Event.isRead ≤ 1
    ∧ (createRoom f W body s).trace.countP Event.isSubmit ≤ 1
    ∧ ∀ ix e, Event.rpc ix (.error e) ∈ (createRoom f W body s).trace →
        (createRoom f W body s).response = ⟨500, .error false e⟩
        ∧ (createRoom f W body s).trace.getLast? = some (Event.rpc ix (.error e)) := by
  rw [createRoom_eq_server]
  exact createRoom_attempts W body s

/-- On the racing ledger the rejected submission ends the request. -/
theorem createRoom_single_attempt_witness :
    Event.rpc (.createRoom (roomAddress 1) globalStateSeeds [Buffer_from "alice"]
          [Buffer_from "system"]) (.error "ConstraintSeeds")
      ∈ (createRoom .server demoWorld (creatorBody "alice") racingLedger).trace
    ∧ (createRoom .server demoWorld (creatorBody "alice") racingLedger).response
        = ⟨500, .error false "ConstraintSeeds"⟩ :=
  ⟨by decide,
    ((createRoom_single_attempt .server demoWorld (creatorBody "alice") racingLedger).2.2
      (.createRoom (roomAddress 1) globalStateSeeds [Buffer_from "alice"] [Buffer_from "system"])
      "ConstraintSeeds" (by decide)).1⟩

/-- C8 fails on the code.  On a ledger where another client commits one
creation between the read and the submission, create-room reads the counter
0, submits for room 1, is rejected, and answers 500 after that one read and
one submission; the ledger it leaves accepts the next create-room request,
which returns room id 2. -/
theorem createRoom_retry_counterexample :
    (createRoom .server demoWorld (creatorBody "alice") racingLedger).response
        = ⟨500, .error false "ConstraintSeeds"⟩
    ∧ ledgerCalls (createRoom .server demoWorld (creatorBody "alice") racingLedger).trace
        = [.fetchGlobalState globalStateSeeds (.ok ⟨0⟩),
           .rpc (.createRoom (roomAddress 1) globalStateSeeds [Buffer_from "alice"]
             [Buffer_from "system"]) (.error "ConstraintSeeds")]
    ∧ (createRoom .server demoWorld (creatorBody "alice")
          (createRoom .server demoWorld (creatorBody "alice") racingLedger).state).response
        = ⟨200, .roomId true "2"⟩ := by
  decide

/-- C9. The room id returned by create-room addresses the created room.  Take
a counter value `k` with `k + 1 < 2^64` and a create-room request that read
`k` and whose submission for the room address derived from `k + 1` the ledger
accepted: it responded with the decimal rendering of `k + 1`.  Given that
string as room id, join-room and end-game (in the body) and fetch-room (in
the route) derive from the same seed list `room`, `k + 1` as eight
little-endian bytes, obtain the same room address, and direct their
submission or their read at that address. -/
theorem created_roomId_addresses_room (f g : SourceFile) (W : World σ PK St) (k : Nat)
    (created : Body) (s : σ) (gs : PK) (bump : Nat) (s1 : σ) (room : PK) (bump2 : Nat)
    (creator : PK) (s2 : σ)
    (hk : k + 1 < 2 ^ 64)
    (hgs : W.findProgramAddress [Buffer_from "global-state"] W.programId = .ok (gs, bump))
    (hread : W.fetchGlobalState s gs = (.ok ⟨(k : Int)⟩, s1))
    (hroom : W.findProgramAddress [Buffer_from "room", leBytes (k + 1) 8] W.programId
      = .ok (room, bump2))
    (hcreator : W.newPublicKey created.creatorPublicKey = .ok creator)
    (hrpc : W.rpc s1 (.createRoom room gs creator W.systemProgramId) = (.ok (), s2)) :
    (createRoom f W created s).response = ⟨200, .roomId true (Nat.repr (k + 1))⟩
    ∧ Event.rpc (.createRoom room gs creator W.systemProgramId) (.ok ())
        ∈ (createRoom f W created s).trace
    ∧ derivedSeeds (createRoom f W created s).trace
        = [globalStateSeeds, [Buffer_from "room", leBytes (k + 1) 8]]
    ∧ (∀ (body : Body) (t : σ), body.roomId = .str (Nat.repr (k + 1)) →
        derivedSeeds (joinRoom g W body t).trace = [[Buffer_from "room", leBytes (k + 1) 8]]
        ∧ derivedSeeds (endGame g W body t).trace = [[Buffer_from "room", leBytes (k + 1) 8]]
        ∧ (∀ player, W.newPublicKey body.playerPublicKey = .ok player →
            (joinRoom g W body t).trace
              = [.findProgramAddress [Buffer_from "room", leBytes (k + 1) 8] (.ok (room, bump2)),
                 .rpc (.joinRoom room player W.systemProgramId)
                   (W.rpc t (.joinRoom room player W.systemProgramId)).1])
        ∧ (∀ winner, W.newPublicKey body.winnerPublicKey = .ok winner →
            (endGame g W body t).trace
              = [.findProgramAddress [Buffer_from "room", leBytes (k + 1) 8] (.ok (room, bump2)),
                 .rpc (.endGame winner room winner W.systemProgramId)
                   (W.rpc t (.endGame winner room winner W.systemProgramId)).1]))
    ∧ (∀ t : σ,
        (fetchRoom g W (Nat.repr (k + 1)) t).trace
          = [.findProgramAddress [Buffer_from "room", leBytes (k + 1) 8] (.ok (room, bump2)),
             .fetchRoom room (W.fetchRoom t room).1]) := by
  have hadd : BN.addn (k : Int) (1 : Nat) = ((k + 1 : Nat) : Int) := by simp [BN.addn]
  have hkey : BN.toArrayLike (BN.addn (⟨(k : Int)⟩ : GlobalState).totalRooms 1) 8
      = .ok (leBytes (k + 1) 8) := by
    show BN.toArrayLike (BN.addn (k : Int) 1) 8 = _
    rw [hadd]
    have := toArrayLike_eight ((k + 1 : Nat) : Int) (by simpa using hk)
    simpa using this
  have hstr : (newBN (.str (Nat.repr (k + 1)))).bind (fun a => BN.toArrayLike a 8)
      = .ok (leBytes (k + 1) 8) :=
    newBN_toArrayLike _ (k + 1) (newBN_repr (k + 1)) hk
  have hrun := createRoom_run W created s ⟨(k : Int)⟩ (leBytes (k + 1) 8) gs bump s1 room bump2
    creator s2 hgs hread hkey hroom hcreator hrpc
  refine ⟨?_, ?_, ?_, ?_, ?_⟩
  · rw [createRoom_eq_server, hrun]
    show (⟨200, .roomId true (BN.toString (BN.addn (k : Int) 1))⟩ : Response St) = _
    rw [hadd, toString_natCast]
  · rw [createRoom_eq_server, hrun]
    simp
  · rw [createRoom_eq_server, hrun]
    simp [derivedSeeds, globalStateSeeds]
  · intro body t hid
    have hb : (newBN body.roomId).bind (fun a => BN.toArrayLike a 8)
        = .ok (leBytes (k + 1) 8) := by rw [hid]; exact hstr
    rw [joinRoom_eq_server, endGame_eq_server]
    exact ⟨derivedSeeds_joinRoom W body t _ hb, derivedSeeds_endGame W body t _ hb,
      fun player hp => joinRoom_trace W body t _ room bump2 player hb hroom hp,
      fun winner hw => endGame_trace W body t _ room bump2 winner hb hroom hw⟩
  · intro t
    rw [fetchRoom_eq_server]
    exact fetchRoom_trace W _ t _ room bump2 hstr hroom

/-- In the demonstration world create-room on a fresh registry creates room 1
and returns the string 1; fetch-room with that string reads the account alice
created, and join-room with it submits for the same address. -/
theorem created_roomId_addresses_room_witness :
    (0 : Nat) + 1 < 2 ^ 64
    ∧ demoWorld.rpc (registryAt 0)
          (.createRoom (roomAddress 1) globalStateSeeds [Buffer_from "alice"]
            demoWorld.systemProgramId)
        = (.ok (), openLedger)
    ∧ (createRoom .server demoWorld (creatorBody "alice") (registryAt 0)).response
        = ⟨200, .roomId true "1"⟩
    ∧ (fetchRoom .api demoWorld "1" openLedger).trace
        = [.findProgramAddress (roomAddress 1) (.ok (roomAddress 1, 255)),
           .fetchRoom (roomAddress 1) (.ok (newRoom 1 [Buffer_from "alice"]))]
    ∧ (joinRoom .api demoWorld (joinBody (.str "1") "bob") openLedger).trace
        = [.findProgramAddress (roomAddress 1) (.ok (roomAddress 1, 255)),
           .rpc (.joinRoom (roomAddress 1) [Buffer_from "bob"] [Buffer_from "system"])
             (.ok ())] :=
  ⟨by decide, by decide,
    (created_roomId_addresses_room .server .api demoWorld 0 (creatorBody "alice")
      (registryAt 0) globalStateSeeds 255 (registryAt 0) (roomAddress 1) 255
      [Buffer_from "alice"] openLedger
      (by decide) (by decide) (by decide) (by decide) (by decide) (by decide)).1,
    (created_roomId_addresses_room .server .api demoWorld 0 (creatorBody "alice")
      (registryAt 0) globalStateSeeds 255 (registryAt 0) (roomAddress 1) 255
      [Buffer_from "alice"] openLedger
      (by decide) (by decide) (by decide) (by decide) (by decide) (by decide)).2.2.2.2
      openLedger,
    ((created_roomId_addresses_room .server .api demoWorld 0 (creatorBody "alice")
      (registryAt 0) globalStateSeeds 255 (registryAt 0) (roomAddress 1) 255
      [Buffer_from "alice"] openLedger
      (by decide) (by decide) (by decide) (by decide) (by decide) (by decide)).2.2.2.1
      (joinBody (.str "1") "bob") openLedger rfl).2.2.1 [Buffer_from "bob"] (by decide)⟩

/-- C10. The two source files implement the same route set: for each of the
five operations, every request and every world, the handler of
`src/server.js` and the handler of `src/api/server.js` make the same external
calls in the same order, give the same response and leave the same ledger
state. -/
theorem handlers_agree (W : World σ PK St) (req : Request) (s : σ) :
    handle .server W req s = handle .api W req s
    ∧ (handle .server W req s).response = (handle .api W req s).response
    ∧ ledgerCalls (handle .server W req s).trace = ledgerCalls (handle .api W req s).trace := by
  have h : handle .server W req s = handle .api W req s := by
    cases req <;> rfl
  exact ⟨h, by rw [h], by rw [h]⟩

end Sonic
